import Mathlib

/- Shallow embedding of the rsdiff perceptual image-diff engine (src/lib.rs).

Modelling conventions:
* RGBA byte buffers are `List ℕ` (each entry a byte); reads go through
  `List.getD _ _ 0`, and the theorems carry the buffer-size hypotheses of the
  source's contract (`len = width*height*4`) where they matter.
* Rust `f32` arithmetic is modelled by exact rational arithmetic over `ℚ`.
  The numeric literals are the exact decimal constants of the source.  The
  casts `as u8` / `as u32` are modelled by flooring with saturation, which is
  Rust's float-to-integer cast behaviour on the (non-NaN, in-range after the
  explicit clamps) values that occur here.
* The `wide` SIMD types (`f32x8`, `u32x8`, `f32x4`) act lane-wise, so each
  SIMD operation is embedded as the same scalar operation applied to each of
  the 8 (resp. 4) lanes; masks/blends become lane-wise if-then-else.
* `u32::from_ne_bytes` is modelled little-endian (byte 0 = red = low byte),
  matching the channel extractions (`pixel & 0xFF` is red) in the source.
-/

namespace Rsdiff

/-- An image (or output) buffer: a flat list of bytes. -/
abbrev Image := List ℕ

/-- Read one byte of a buffer (out-of-range reads give 0). -/
def getB (img : Image) (pos : ℕ) : ℕ := img.getD pos 0

/-- Embeds `load_pixel_u32` (src/lib.rs:405): pack 4 consecutive bytes into a
u32, little-endian, so red is the low byte. -/
def load_pixel_u32 (img : Image) (pos : ℕ) : ℕ :=
  getB img pos + 2 ^ 8 * getB img (pos + 1) + 2 ^ 16 * getB img (pos + 2) +
    2 ^ 24 * getB img (pos + 3)

/-- Red channel of a packed pixel (`pixel & 0xFF`). -/
def chR (p : ℕ) : ℕ := p % 256

/-- Green channel of a packed pixel (`(pixel >> 8) & 0xFF`). -/
def chG (p : ℕ) : ℕ := p / 2 ^ 8 % 256

/-- Blue channel of a packed pixel (`(pixel >> 16) & 0xFF`). -/
def chB (p : ℕ) : ℕ := p / 2 ^ 16 % 256

/-- Alpha channel of a packed pixel (`(pixel >> 24) & 0xFF`). -/
def chA (p : ℕ) : ℕ := p / 2 ^ 24 % 256

/-- YIQ coefficient `Y_R` (src/lib.rs:40). -/
def Y_R : ℚ := 0.29889531

/-- YIQ coefficient `Y_G` (src/lib.rs:41). -/
def Y_G : ℚ := 0.58662247

/-- YIQ coefficient `Y_B` (src/lib.rs:42). -/
def Y_B : ℚ := 0.11448223

/-- YIQ coefficient `I_R` (src/lib.rs:44). -/
def I_R : ℚ := 0.59597799

/-- YIQ coefficient `I_G` (src/lib.rs:45). -/
def I_G : ℚ := 0.27417610

/-- YIQ coefficient `I_B` (src/lib.rs:46). -/
def I_B : ℚ := 0.32180189

/-- YIQ coefficient `Q_R` (src/lib.rs:48). -/
def Q_R : ℚ := 0.21147017

/-- YIQ coefficient `Q_G` (src/lib.rs:49). -/
def Q_G : ℚ := 0.52261711

/-- YIQ coefficient `Q_B` (src/lib.rs:50). -/
def Q_B : ℚ := 0.31114694

/-- Weight of the Y component in the color delta (src/lib.rs:52). -/
def YIQ_Y_WEIGHT : ℚ := 0.5053

/-- Weight of the I component in the color delta (src/lib.rs:53). -/
def YIQ_I_WEIGHT : ℚ := 0.299

/-- Weight of the Q component in the color delta (src/lib.rs:54). -/
def YIQ_Q_WEIGHT : ℚ := 0.1957

/-- White-background alpha compositing of one channel, as inlined in
`calculate_pixel_color_delta_fast` (src/lib.rs:424-448): transparent gives
white, opaque gives the channel, otherwise `255 + (c - 255) * (a / 255)`. -/
def blendChan (c a : ℚ) : ℚ :=
  if a = 0 then 255
  else if a = 255 then c
  else 255 + (c - 255) * (a / 255)

/-- Embeds `calculate_pixel_color_delta_fast` (src/lib.rs:411-456): composite
both packed pixels over white, take YIQ differences, return the weighted sum
of squares. -/
def calculate_pixel_color_delta_fast (pa pb : ℕ) : ℚ :=
  let r1 := blendChan (chR pa) (chA pa)
  let g1 := blendChan (chG pa) (chA pa)
  let b1 := blendChan (chB pa) (chA pa)
  let r2 := blendChan (chR pb) (chA pb)
  let g2 := blendChan (chG pb) (chA pb)
  let b2 := blendChan (chB pb) (chA pb)
  let y_diff := (r1 * Y_R + g1 * Y_G + b1 * Y_B) - (r2 * Y_R + g2 * Y_G + b2 * Y_B)
  let i_diff := (r1 * I_R - g1 * I_G - b1 * I_B) - (r2 * I_R - g2 * I_G - b2 * I_B)
  let q_diff := (r1 * Q_R - g1 * Q_G + b1 * Q_B) - (r2 * Q_R - g2 * Q_G + b2 * Q_B)
  YIQ_Y_WEIGHT * y_diff * y_diff + YIQ_I_WEIGHT * i_diff * i_diff +
    YIQ_Q_WEIGHT * q_diff * q_diff

/-- Lane value of `calculate_8_pixel_color_deltas_fast` (src/lib.rs:260-352).
The SIMD body acts lane-wise: masks `cmp_eq`/`blend` become if-then-else on
the lane, and the arithmetic is the same expression tree as the scalar
function. -/
def calc8_lane (pa pb : ℕ) : ℚ :=
  let alpha_a : ℚ := (chA pa : ℚ) / 255
  let alpha_b : ℚ := (chA pb : ℚ) / 255
  let r1 := if (chA pa : ℚ) = 0 then 255 else if (chA pa : ℚ) = 255 then (chR pa : ℚ)
    else 255 + ((chR pa : ℚ) - 255) * alpha_a
  let g1 := if (chA pa : ℚ) = 0 then 255 else if (chA pa : ℚ) = 255 then (chG pa : ℚ)
    else 255 + ((chG pa : ℚ) - 255) * alpha_a
  let b1 := if (chA pa : ℚ) = 0 then 255 else if (chA pa : ℚ) = 255 then (chB pa : ℚ)
    else 255 + ((chB pa : ℚ) - 255) * alpha_a
  let r2 := if (chA pb : ℚ) = 0 then 255 else if (chA pb : ℚ) = 255 then (chR pb : ℚ)
    else 255 + ((chR pb : ℚ) - 255) * alpha_b
  let g2 := if (chA pb : ℚ) = 0 then 255 else if (chA pb : ℚ) = 255 then (chG pb : ℚ)
    else 255 + ((chG pb : ℚ) - 255) * alpha_b
  let b2 := if (chA pb : ℚ) = 0 then 255 else if (chA pb : ℚ) = 255 then (chB pb : ℚ)
    else 255 + ((chB pb : ℚ) - 255) * alpha_b
  let y_diff := (r1 * Y_R + g1 * Y_G + b1 * Y_B) - (r2 * Y_R + g2 * Y_G + b2 * Y_B)
  let i_diff := (r1 * I_R - g1 * I_G - b1 * I_B) - (r2 * I_R - g2 * I_G - b2 * I_B)
  let q_diff := (r1 * Q_R - g1 * Q_G + b1 * Q_B) - (r2 * Q_R - g2 * Q_G + b2 * Q_B)
  YIQ_Y_WEIGHT * y_diff * y_diff + YIQ_I_WEIGHT * i_diff * i_diff +
    YIQ_Q_WEIGHT * q_diff * q_diff

/-- Luma of `f32x4::splat(255.0) * (Y_R + Y_G + Y_B)`, the composited luma of
a fully transparent pixel (src/lib.rs:504). -/
def lumaWhite : ℚ := 255 * (Y_R + Y_G + Y_B)

/-- Composited luma of one packed pixel, as computed lane-wise inside
`calculate_brightness_delta_fast` (src/lib.rs:506-524). -/
def lumaOf (p : ℕ) : ℚ :=
  let a : ℚ := chA p
  if a = 0 then lumaWhite
  else if a = 255 then (chR p : ℚ) * Y_R + (chG p : ℚ) * Y_G + (chB p : ℚ) * Y_B
  else (255 + ((chR p : ℚ) - 255) * (a / 255)) * Y_R +
    (255 + ((chG p : ℚ) - 255) * (a / 255)) * Y_G +
    (255 + ((chB p : ℚ) - 255) * (a / 255)) * Y_B

/-- Embeds `calculate_brightness_delta_fast` (src/lib.rs:460-528): the
difference of the two composited lumas (lane 0 of the f32x4 computation). -/
def calculate_brightness_delta_fast (pa pb : ℕ) : ℚ := lumaOf pa - lumaOf pb

/-- Rust `as u8` on an f32 (saturating, truncating toward zero on the
non-negative values that occur after the source's clamps). -/
def f32_as_u8 (q : ℚ) : ℕ := (max 0 (min 255 ⌊q⌋)).toNat

/-- Rust `as u32` on a non-negative f32: truncation, i.e. the floor. -/
def f32_as_u32 (q : ℚ) : ℕ := (max 0 ⌊q⌋).toNat

/-- Gray value written by `draw_gray_pixel_fast` (src/lib.rs:650-662): the
luma is truncated to an integer (`as u32`) before blending. -/
def draw_gray_val (img : Image) (i : ℕ) (alpha : ℚ) : ℕ :=
  let y : ℕ := f32_as_u32 ((getB img i : ℚ) * Y_R + (getB img (i + 1) : ℚ) * Y_G +
    (getB img (i + 2) : ℚ) * Y_B)
  let a : ℚ := (getB img (i + 3) : ℚ) * (1 / 255)
  f32_as_u8 (min 255 (max 0 (255 + ((y : ℚ) - 255) * alpha * a)))

/-- Gray value of one lane of `draw_8_gray_pixels_fast` (src/lib.rs:356-401):
same blend, but the luma stays a float (no truncation). -/
def draw8_gray_val (img : Image) (pos : ℕ) (alpha : ℚ) : ℕ :=
  let y : ℚ := (getB img pos : ℚ) * Y_R + (getB img (pos + 1) : ℚ) * Y_G +
    (getB img (pos + 2) : ℚ) * Y_B
  let an : ℚ := (getB img (pos + 3) : ℚ) / 255
  f32_as_u8 (min 255 (max 0 (255 + (y - 255) * alpha * an)))

/-- Write 4 consecutive bytes of the output buffer, as the stores
`out[pos..pos+3]` in `write_color` / the pixel-drawing helpers. -/
def write4 (out : List ℕ) (pos b0 b1 b2 b3 : ℕ) : List ℕ :=
  (((out.set pos b0).set (pos + 1) b1).set (pos + 2) b2).set (pos + 3) b3

/-- Embeds `write_color` (src/lib.rs:642-648). -/
def write_color (out : List ℕ) (pos : ℕ) (color : ℕ × ℕ × ℕ) : List ℕ :=
  write4 out pos color.1 color.2.1 color.2.2 255

/-- Embeds `draw_gray_pixel_fast` (src/lib.rs:650-662). -/
def draw_gray_pixel_fast (img : Image) (i : ℕ) (alpha : ℚ) (out : List ℕ) : List ℕ :=
  write4 out i (draw_gray_val img i alpha) (draw_gray_val img i alpha)
    (draw_gray_val img i alpha) 255

/-- Embeds `draw_8_gray_pixels_fast` (src/lib.rs:356-401): stores the 8 lane
results at `base_pos + i*4` for `i = 0..8`. -/
def draw_8_gray_pixels_fast (img : Image) (base : ℕ) (alpha : ℚ) (out : List ℕ) : List ℕ :=
  (List.range 8).foldl
    (fun o i => write4 o (base + i * 4) (draw8_gray_val img (base + i * 4) alpha)
      (draw8_gray_val img (base + i * 4) alpha) (draw8_gray_val img (base + i * 4) alpha) 255)
    out

/-- Edge test shared by the anti-aliasing classifier (src/lib.rs:541) and the
sibling test (src/lib.rs:607): the initial zero-count is 1 on a border/corner
pixel and 0 elsewhere. -/
def edgeBias (x y w h : ℕ) : ℕ :=
  if x = 0 ∨ x = w - 1 ∨ y = 0 ∨ y = h - 1 then 1 else 0

/-- The 3x3 border-clamped neighbourhood of (x, y), in the scan order of the
nested loops `for adj_y in y0..=y1 { for adj_x in x0..=x1 }` of
src/lib.rs:558-560 (the center is kept in the list; the loop bodies skip it).
Natural subtraction models `(v - 1).max(0)`. -/
def neighborCoords (x y w h : ℕ) : List (ℕ × ℕ) :=
  let x0 := x - 1
  let y0 := y - 1
  let x1 := min (x + 1) (w - 1)
  let y1 := min (y + 1) (h - 1)
  ((List.range (y1 + 1 - y0)).map (fun k => y0 + k)).flatMap
    (fun ay => ((List.range (x1 + 1 - x0)).map (fun k => x0 + k)).map (fun ax => (ax, ay)))

/-- Mutable state of the classifier's 3x3 scan (src/lib.rs:548-552):
zero-count plus the running minimum/maximum brightness delta with its
coordinate.  `none` models the `f32::MAX` / `f32::MIN` sentinels (every real
delta compares into them, and they are the "no candidate found" markers). -/
structure AAState where
  zeroes : ℕ
  minD : Option (ℚ × ℕ × ℕ)
  maxD : Option (ℚ × ℕ × ℕ)
deriving DecidableEq

/-- One iteration of the classifier's 3x3 loop body (src/lib.rs:561-583).
`none` models the early `return false` taken when the zero-count reaches 3. -/
def aaLoopStep (img : Image) (w x y baseColor : ℕ) (st : AAState) (c : ℕ × ℕ) :
    Option AAState :=
  if st.zeroes ≥ 3 ∨ (x = c.1 ∧ y = c.2) then some st
  else
    let adjColor := load_pixel_u32 img ((c.2 * w + c.1) * 4)
    if baseColor = adjColor then
      if st.zeroes + 1 ≥ 3 then none
      else some { st with zeroes := st.zeroes + 1 }
    else
      let d := calculate_brightness_delta_fast baseColor adjColor
      let st1 := match st.minD with
        | none => { st with minD := some (d, c) }
        | some (m, mc) => if d < m then { st with minD := some (d, c) }
          else { st with minD := some (m, mc) }
      let st2 := match st1.maxD with
        | none => { st1 with maxD := some (d, c) }
        | some (m, mc) => if d > m then { st1 with maxD := some (d, c) }
          else { st1 with maxD := some (m, mc) }
      some st2

/-- The classifier's 3x3 loop (src/lib.rs:558-585) over a list of neighbour
coordinates, short-circuiting on the early `return false`. -/
def aaScan (img : Image) (w x y baseColor : ℕ) :
    List (ℕ × ℕ) → AAState → Option AAState
  | [], st => some st
  | c :: rest, st =>
    match aaLoopStep img w x y baseColor st c with
    | none => none
    | some st1 => aaScan img w x y baseColor rest st1

/-- One iteration of the sibling-count loop body (src/lib.rs:622-637); `none`
models the early `return true` taken when the zero-count reaches 3. -/
def sibScan (img : Image) (w x y baseColor : ℕ) : List (ℕ × ℕ) → ℕ → Option ℕ
  | [], z => some z
  | c :: rest, z =>
    if z ≥ 3 ∨ (x = c.1 ∧ y = c.2) then sibScan img w x y baseColor rest z
    else if load_pixel_u32 img ((c.2 * w + c.1) * 4) = baseColor then
      if z + 1 ≥ 3 then none
      else sibScan img w x y baseColor rest (z + 1)
    else sibScan img w x y baseColor rest z

/-- Embeds `has_many_siblings_optimized` (src/lib.rs:602-640): count the
3x3 border-clamped neighbours byte-identical to the center (with the edge
bias) and report whether the count reached 3. -/
def has_many_siblings_optimized (img : Image) (x y w h : ℕ) : Bool :=
  if w - 1 < x ∨ h - 1 < y then false
  else
    let z0 := edgeBias x y w h
    if z0 ≥ 3 then true
    else
      match sibScan img w x y (load_pixel_u32 img ((y * w + x) * 4))
        (neighborCoords x y w h) z0 with
      | none => true
      | some _ => false

/-- Embeds `is_pixel_antialiased_optimized` (src/lib.rs:532-599): scan the
3x3 neighbourhood of (x, y) in the base image, early-exit false at 3
byte-identical neighbours, then require a sibling-rich extremal neighbour in
both images. -/
def is_pixel_antialiased_optimized (base_img comp_img : Image) (x y w h : ℕ) : Bool :=
  let baseColor := load_pixel_u32 base_img ((y * w + x) * 4)
  match aaScan base_img w x y baseColor (neighborCoords x y w h)
    ⟨edgeBias x y w h, none, none⟩ with
  | none => false
  | some st =>
    if st.zeroes ≥ 3 then false
    else
      match st.minD, st.maxD with
      | some (_, mc), some (_, xc) =>
        (has_many_siblings_optimized base_img mc.1 mc.2 w h ||
          has_many_siblings_optimized base_img xc.1 xc.2 w h) &&
        (has_many_siblings_optimized comp_img mc.1 mc.2 w h ||
          has_many_siblings_optimized comp_img xc.1 xc.2 w h)
      | _, _ => false

/-- Embeds `DiffOptions` (src/lib.rs:8-15). -/
structure DiffOptions where
  threshold : ℚ
  include_aa : Bool
  alpha : ℚ
  aa_color : ℕ × ℕ × ℕ
  diff_color : ℕ × ℕ × ℕ
  diff_color_alt : Option (ℕ × ℕ × ℕ)
deriving DecidableEq

/-- Embeds `DiffOptions::default` (src/lib.rs:17-28). -/
def DiffOptions.default : DiffOptions :=
  ⟨0.1, false, 0.1, (255, 255, 0), (255, 0, 255), none⟩

/-- Embeds `DiffResult` (src/lib.rs:31-37). -/
structure DiffResult where
  diff_count : ℕ
  output : List ℕ
  width : ℕ
  height : ℕ
deriving DecidableEq

/-- Accumulator of the scan: the output buffer and the running diff count. -/
structure ScanState where
  out : List ℕ
  cnt : ℕ
deriving DecidableEq

/-- The precomputed threshold `35215.0 * (threshold * threshold)`
(src/lib.rs:106). -/
def maxDeltaOf (o : DiffOptions) : ℚ := 35215 * (o.threshold * o.threshold)

/-- One scalar (remainder-path) pixel step of `diff_rgba` (src/lib.rs:207-236):
exact match draws gray, above-threshold delta draws the AA or diff marker
(counting only the diff marker), anything else draws gray. -/
def scalar_pixel_step (img1 img2 : Image) (o : DiffOptions) (w h x y : ℕ)
    (st : ScanState) : ScanState :=
  let pos := y * w * 4 + x * 4
  let p1 := load_pixel_u32 img1 pos
  let p2 := load_pixel_u32 img2 pos
  if p1 = p2 then { st with out := draw_gray_pixel_fast img1 pos o.alpha st.out }
  else if calculate_pixel_color_delta_fast p1 p2 > maxDeltaOf o then
    if o.include_aa && is_pixel_antialiased_optimized img1 img2 x y w h then
      { st with out := write_color st.out pos o.aa_color }
    else
      { out := write_color st.out pos o.diff_color, cnt := st.cnt + 1 }
  else { st with out := draw_gray_pixel_fast img1 pos o.alpha st.out }

/-- The per-group exact-match test `pixels1.cmp_eq(pixels2).all()`
(src/lib.rs:145-147) for the 8 pixels starting at byte `base`. -/
def blockAllEq (img1 img2 : Image) (base : ℕ) : Bool :=
  (List.range 8).all
    (fun i => load_pixel_u32 img1 (base + i * 4) == load_pixel_u32 img2 (base + i * 4))

/-- Lane `i` of the SIMD group dispatch (src/lib.rs:173-200): per-lane exact
match, then the lane's delta against the threshold, then the same AA/diff
dispatch as the scalar path. -/
def simd_lane_step (img1 img2 : Image) (o : DiffOptions) (w h xb y : ℕ)
    (st : ScanState) (i : ℕ) : ScanState :=
  let base := y * w * 4 + xb * 4
  let pos := base + i * 4
  let p1 := load_pixel_u32 img1 pos
  let p2 := load_pixel_u32 img2 pos
  if p1 = p2 then { st with out := draw_gray_pixel_fast img1 pos o.alpha st.out }
  else if calc8_lane p1 p2 > maxDeltaOf o then
    if o.include_aa && is_pixel_antialiased_optimized img1 img2 (xb + i) y w h then
      { st with out := write_color st.out pos o.aa_color }
    else
      { out := write_color st.out pos o.diff_color, cnt := st.cnt + 1 }
  else { st with out := draw_gray_pixel_fast img1 pos o.alpha st.out }

/-- One 8-pixel SIMD group of `diff_rgba` (src/lib.rs:137-204), starting at
pixel column `xb`: if all 8 pixel pairs match exactly, draw 8 gray pixels at
once, otherwise dispatch each lane. -/
def simd_block_step (img1 img2 : Image) (o : DiffOptions) (w h xb y : ℕ)
    (st : ScanState) : ScanState :=
  let base := y * w * 4 + xb * 4
  if blockAllEq img1 img2 base then
    { st with out := draw_8_gray_pixels_fast img1 base o.alpha st.out }
  else
    (List.range 8).foldl (fun st1 i => simd_lane_step img1 img2 o w h xb y st1 i) st

/-- One row of `diff_rgba` (src/lib.rs:132-237): `w / 8` SIMD groups (the
`while x + SIMD_WIDTH <= w` loop), then the scalar remainder pixels. -/
def process_row (img1 img2 : Image) (o : DiffOptions) (w h y : ℕ)
    (st : ScanState) : ScanState :=
  let nb := w / 8
  let st1 := (List.range nb).foldl
    (fun st2 b => simd_block_step img1 img2 o w h (b * 8) y st2) st
  (List.range (w - nb * 8)).foldl
    (fun st2 k => scalar_pixel_step img1 img2 o w h (nb * 8 + k) y st2) st1

/-- Embeds `diff_rgba` (src/lib.rs:89-245): allocate a zeroed output buffer of
`width*height*4` bytes and scan all rows. -/
def diff_rgba (img1 img2 : Image) (width height : ℕ) (opts : Option DiffOptions) :
    DiffResult :=
  let o := opts.getD DiffOptions.default
  let st := (List.range height).foldl
    (fun st1 y => process_row img1 img2 o width height y st1)
    ⟨List.replicate (width * height * 4) 0, 0⟩
  ⟨st.cnt, st.out, width, height⟩

/-- The pure scalar reference scan: every pixel of a row is processed by the
remainder-path body `scalar_pixel_step` (the path of src/lib.rs:207-236),
with no SIMD batching.  This is the "pure scalar pixel-at-a-time path" that
the spec's batched-vs-scalar equivalence property compares against. -/
def process_row_scalar (img1 img2 : Image) (o : DiffOptions) (w h y : ℕ)
    (st : ScanState) : ScanState :=
  (List.range w).foldl (fun st1 x => scalar_pixel_step img1 img2 o w h x y st1) st

/-- The scalar reference diff: `diff_rgba` with the batched groups replaced by
the scalar remainder path for every pixel. -/
def diff_rgba_scalar (img1 img2 : Image) (width height : ℕ)
    (opts : Option DiffOptions) : DiffResult :=
  let o := opts.getD DiffOptions.default
  let st := (List.range height).foldl
    (fun st1 y => process_row_scalar img1 img2 o width height y st1)
    ⟨List.replicate (width * height * 4) 0, 0⟩
  ⟨st.cnt, st.out, width, height⟩

/-- The three states a pixel of the output can be rendered in. -/
inductive RenderState where
  | unchanged
  | aaMarker
  | diffMarker
deriving DecidableEq

/-- Per-pixel classification of the scan, read off the branch structure shared
by the lane dispatch and the remainder path of `diff_rgba`. -/
def pixelState (img1 img2 : Image) (o : DiffOptions) (w h x y : ℕ) : RenderState :=
  let pos := y * w * 4 + x * 4
  let p1 := load_pixel_u32 img1 pos
  let p2 := load_pixel_u32 img2 pos
  if p1 = p2 then .unchanged
  else if calculate_pixel_color_delta_fast p1 p2 > maxDeltaOf o then
    if o.include_aa && is_pixel_antialiased_optimized img1 img2 x y w h then .aaMarker
    else .diffMarker
  else .unchanged

/-- Whether pixel (x, y) contributes to `diff_count`. -/
def pixelFlag (img1 img2 : Image) (o : DiffOptions) (w h x y : ℕ) : Bool :=
  pixelState img1 img2 o w h x y == .diffMarker

/-- The 4 output bytes of a gray pixel drawn by the scalar path. -/
def grayScalarBytes (img : Image) (pos : ℕ) (alpha : ℚ) : List ℕ :=
  [draw_gray_val img pos alpha, draw_gray_val img pos alpha,
    draw_gray_val img pos alpha, 255]

/-- The 4 output bytes of a gray pixel drawn by the batched all-equal path. -/
def gray8Bytes (img : Image) (pos : ℕ) (alpha : ℚ) : List ℕ :=
  [draw8_gray_val img pos alpha, draw8_gray_val img pos alpha,
    draw8_gray_val img pos alpha, 255]

/-- The 4 output bytes of a marker color. -/
def colorBytes (c : ℕ × ℕ × ℕ) : List ℕ := [c.1, c.2.1, c.2.2, 255]

/-- The 4 output bytes the scalar path produces for pixel (x, y). -/
def scalarRenderBytes (img1 img2 : Image) (o : DiffOptions) (w h x y : ℕ) : List ℕ :=
  let pos := y * w * 4 + x * 4
  match pixelState img1 img2 o w h x y with
  | .unchanged => grayScalarBytes img1 pos o.alpha
  | .aaMarker => colorBytes o.aa_color
  | .diffMarker => colorBytes o.diff_color

/-- Whether pixel column x of row y falls in a SIMD group whose 8 pixel pairs
all match exactly (the only case where the batched renderer differs from the
scalar one). -/
def inAllEqBlock (img1 img2 : Image) (w x y : ℕ) : Prop :=
  x < w / 8 * 8 ∧ blockAllEq img1 img2 (y * w * 4 + x / 8 * 8 * 4) = true

instance (img1 img2 : Image) (w x y : ℕ) : Decidable (inAllEqBlock img1 img2 w x y) := by
  unfold inAllEqBlock; infer_instance

/-- The 4 output bytes `diff_rgba` produces for pixel (x, y): the batched
all-equal groups use the untruncated gray renderer, everything else follows
the scalar branch structure. -/
def pixelRenderBytes (img1 img2 : Image) (o : DiffOptions) (w h x y : ℕ) : List ℕ :=
  let pos := y * w * 4 + x * 4
  if inAllEqBlock img1 img2 w x y then gray8Bytes img1 pos o.alpha
  else scalarRenderBytes img1 img2 o w h x y

/-- The 4 bytes of pixel number p of a buffer. -/
def px (out : List ℕ) (p : ℕ) : List ℕ :=
  [out.getD (p * 4) 0, out.getD (p * 4 + 1) 0, out.getD (p * 4 + 2) 0,
    out.getD (p * 4 + 3) 0]

/-- A decoded image as handed to the dimension check of `diff_images` /
`diff_bytes` (src/lib.rs:678-694, 713-730): the external decoder collaborator
produced a width, a height and an RGBA8 buffer. -/
structure DecodedImage where
  width : ℕ
  height : ℕ
  data : List ℕ
deriving DecidableEq

/-- Embeds the post-decode part of `diff_bytes` (src/lib.rs:713-730): if the
two decoded images disagree in width or height, return the dimension error
(the formatted `Err` string of the source) without running `diff_rgba`;
otherwise run `diff_rgba` on the raw buffers. -/
def diff_bytes (d1 d2 : DecodedImage) (opts : Option DiffOptions) :
    Except String DiffResult :=
  if d1.width ≠ d2.width ∨ d1.height ≠ d2.height then
    .error ("Images must have equal dimensions")
  else .ok (diff_rgba d1.data d2.data d1.width d1.height opts)

/-- Embeds the post-decode part of `diff_images` (src/lib.rs:678-695), which
performs the same dimension check before invoking `diff_rgba`. -/
def diff_images (d1 d2 : DecodedImage) (opts : Option DiffOptions) :
    Except String DiffResult :=
  if d1.width ≠ d2.width ∨ d1.height ≠ d2.height then
    .error ("Images must have equal dimensions")
  else .ok (diff_rgba d1.data d2.data d1.width d1.height opts)

/- The byte-write primitive is sealed against definitional unfolding: its
`List.set` chains over symbolic buffers make unification explode; all
reasoning about it goes through its equation lemma. -/
attribute [irreducible] write4

/- Buffer primitives: reading pixels after 4-byte writes. -/

theorem length_write4 (out : List ℕ) (pos b0 b1 b2 b3 : ℕ) :
    (write4 out pos b0 b1 b2 b3).length = out.length := by
  unfold write4
  simp

theorem px_write4_self (out : List ℕ) (p b0 b1 b2 b3 : ℕ) (h : p * 4 + 3 < out.length) :
    px (write4 out (p * 4) b0 b1 b2 b3) p = [b0, b1, b2, b3] := by
  unfold write4
  simp only [px, List.getD_eq_getElem?_getD]
  rw [List.getElem?_set_ne (show p * 4 + 3 ≠ p * 4 by omega),
    List.getElem?_set_ne (show p * 4 + 2 ≠ p * 4 by omega),
    List.getElem?_set_ne (show p * 4 + 1 ≠ p * 4 by omega),
    List.getElem?_set_eq_of_lt b0 (show p * 4 < out.length by omega),
    List.getElem?_set_ne (show p * 4 + 3 ≠ p * 4 + 1 by omega),
    List.getElem?_set_ne (show p * 4 + 2 ≠ p * 4 + 1 by omega),
    List.getElem?_set_eq_of_lt b1
      (show p * 4 + 1 < (out.set (p * 4) b0).length by rw [List.length_set]; omega),
    List.getElem?_set_ne (show p * 4 + 3 ≠ p * 4 + 2 by omega),
    List.getElem?_set_eq_of_lt b2
      (show p * 4 + 2 < ((out.set (p * 4) b0).set (p * 4 + 1) b1).length by
        rw [List.length_set, List.length_set]; omega),
    List.getElem?_set_eq_of_lt b3
      (show p * 4 + 3 < (((out.set (p * 4) b0).set (p * 4 + 1) b1).set (p * 4 + 2) b2).length by
        rw [List.length_set, List.length_set, List.length_set]; omega)]
  simp

theorem px_write4_ne (out : List ℕ) (p q b0 b1 b2 b3 : ℕ) (h : q ≠ p) :
    px (write4 out (p * 4) b0 b1 b2 b3) q = px out q := by
  unfold write4
  simp only [px, List.getD_eq_getElem?_getD]
  rw [List.getElem?_set_ne (show p * 4 + 3 ≠ q * 4 by omega),
    List.getElem?_set_ne (show p * 4 + 2 ≠ q * 4 by omega),
    List.getElem?_set_ne (show p * 4 + 1 ≠ q * 4 by omega),
    List.getElem?_set_ne (show p * 4 ≠ q * 4 by omega),
    List.getElem?_set_ne (show p * 4 + 3 ≠ q * 4 + 1 by omega),
    List.getElem?_set_ne (show p * 4 + 2 ≠ q * 4 + 1 by omega),
    List.getElem?_set_ne (show p * 4 + 1 ≠ q * 4 + 1 by omega),
    List.getElem?_set_ne (show p * 4 ≠ q * 4 + 1 by omega),
    List.getElem?_set_ne (show p * 4 + 3 ≠ q * 4 + 2 by omega),
    List.getElem?_set_ne (show p * 4 + 2 ≠ q * 4 + 2 by omega),
    List.getElem?_set_ne (show p * 4 + 1 ≠ q * 4 + 2 by omega),
    List.getElem?_set_ne (show p * 4 ≠ q * 4 + 2 by omega),
    List.getElem?_set_ne (show p * 4 + 3 ≠ q * 4 + 3 by omega),
    List.getElem?_set_ne (show p * 4 + 2 ≠ q * 4 + 3 by omega),
    List.getElem?_set_ne (show p * 4 + 1 ≠ q * 4 + 3 by omega),
    List.getElem?_set_ne (show p * 4 ≠ q * 4 + 3 by omega)]

theorem pixel_pos_lt {w h x y : ℕ} (hx : x < w) (hy : y < h) :
    (y * w + x) * 4 + 3 < w * h * 4 := by
  have h1 : y * w + x < h * w := by
    calc y * w + x < y * w + w := by omega
    _ = (y + 1) * w := by ring
    _ ≤ h * w := Nat.mul_le_mul_right w hy
  have h2 : h * w = w * h := Nat.mul_comm h w
  omega

theorem draw_8_unfold (img : Image) (base : ℕ) (alpha : ℚ) (out : List ℕ) :
    draw_8_gray_pixels_fast img base alpha out =
      write4 (write4 (write4 (write4 (write4 (write4 (write4 (write4 out
        (base + 0 * 4) (draw8_gray_val img (base + 0 * 4) alpha)
          (draw8_gray_val img (base + 0 * 4) alpha)
          (draw8_gray_val img (base + 0 * 4) alpha) 255)
        (base + 1 * 4) (draw8_gray_val img (base + 1 * 4) alpha)
          (draw8_gray_val img (base + 1 * 4) alpha)
          (draw8_gray_val img (base + 1 * 4) alpha) 255)
        (base + 2 * 4) (draw8_gray_val img (base + 2 * 4) alpha)
          (draw8_gray_val img (base + 2 * 4) alpha)
          (draw8_gray_val img (base + 2 * 4) alpha) 255)
        (base + 3 * 4) (draw8_gray_val img (base + 3 * 4) alpha)
          (draw8_gray_val img (base + 3 * 4) alpha)
          (draw8_gray_val img (base + 3 * 4) alpha) 255)
        (base + 4 * 4) (draw8_gray_val img (base + 4 * 4) alpha)
          (draw8_gray_val img (base + 4 * 4) alpha)
          (draw8_gray_val img (base + 4 * 4) alpha) 255)
        (base + 5 * 4) (draw8_gray_val img (base + 5 * 4) alpha)
          (draw8_gray_val img (base + 5 * 4) alpha)
          (draw8_gray_val img (base + 5 * 4) alpha) 255)
        (base + 6 * 4) (draw8_gray_val img (base + 6 * 4) alpha)
          (draw8_gray_val img (base + 6 * 4) alpha)
          (draw8_gray_val img (base + 6 * 4) alpha) 255)
        (base + 7 * 4) (draw8_gray_val img (base + 7 * 4) alpha)
          (draw8_gray_val img (base + 7 * 4) alpha)
          (draw8_gray_val img (base + 7 * 4) alpha) 255 := by
  simp only [draw_8_gray_pixels_fast,
    show List.range 8 = [0, 1, 2, 3, 4, 5, 6, 7] from rfl,
    List.foldl_cons, List.foldl_nil]

theorem length_draw8 (img : Image) (base : ℕ) (alpha : ℚ) (out : List ℕ) :
    (draw_8_gray_pixels_fast img base alpha out).length = out.length := by
  rw [draw_8_unfold]
  simp only [length_write4]

theorem px_draw8_ne (img : Image) (pb q : ℕ) (alpha : ℚ) (out : List ℕ)
    (h : q < pb ∨ pb + 8 ≤ q) :
    px (draw_8_gray_pixels_fast img (pb * 4) alpha out) q = px out q := by
  rw [draw_8_unfold]
  have e : ∀ i : ℕ, pb * 4 + i * 4 = (pb + i) * 4 := fun i => by ring
  rw [e 0, e 1, e 2, e 3, e 4, e 5, e 6, e 7]
  rw [px_write4_ne _ _ _ _ _ _ _ (show q ≠ pb + 7 by omega),
    px_write4_ne _ _ _ _ _ _ _ (show q ≠ pb + 6 by omega),
    px_write4_ne _ _ _ _ _ _ _ (show q ≠ pb + 5 by omega),
    px_write4_ne _ _ _ _ _ _ _ (show q ≠ pb + 4 by omega),
    px_write4_ne _ _ _ _ _ _ _ (show q ≠ pb + 3 by omega),
    px_write4_ne _ _ _ _ _ _ _ (show q ≠ pb + 2 by omega),
    px_write4_ne _ _ _ _ _ _ _ (show q ≠ pb + 1 by omega),
    px_write4_ne _ _ _ _ _ _ _ (show q ≠ pb + 0 by omega)]

theorem px_draw8_lane (img : Image) (pb i : ℕ) (alpha : ℚ) (out : List ℕ)
    (hi : i < 8) (h : (pb + 7) * 4 + 3 < out.length) :
    px (draw_8_gray_pixels_fast img (pb * 4) alpha out) (pb + i) =
      gray8Bytes img ((pb + i) * 4) alpha := by
  rw [draw_8_unfold]
  have e : ∀ j : ℕ, pb * 4 + j * 4 = (pb + j) * 4 := fun j => by ring
  rw [e 0, e 1, e 2, e 3, e 4, e 5, e 6, e 7]
  interval_cases i <;>
    simp only [gray8Bytes] <;>
    (repeat rw [px_write4_ne _ _ _ _ _ _ _ (by omega)]) <;>
    rw [px_write4_self _ _ _ _ _ _ (by (repeat rw [length_write4]); omega)]

/- The scalar pixel step: length, count and pixel characterization. -/

theorem calc8_lane_eq (pa pb : ℕ) :
    calc8_lane pa pb = calculate_pixel_color_delta_fast pa pb := rfl

theorem simd_lane_step_eq (img1 img2 : Image) (o : DiffOptions) (w h xb y : ℕ)
    (st : ScanState) (i : ℕ) :
    simd_lane_step img1 img2 o w h xb y st i =
      scalar_pixel_step img1 img2 o w h (xb + i) y st := by
  simp only [simd_lane_step, scalar_pixel_step, calc8_lane_eq]
  have e : y * w * 4 + xb * 4 + i * 4 = y * w * 4 + (xb + i) * 4 := by ring
  rw [e]

theorem len_scalar_step (img1 img2 : Image) (o : DiffOptions) (w h x y : ℕ)
    (st : ScanState) :
    (scalar_pixel_step img1 img2 o w h x y st).out.length = st.out.length := by
  simp only [scalar_pixel_step]
  split_ifs <;> simp [draw_gray_pixel_fast, write_color, length_write4]

theorem cnt_scalar_step (img1 img2 : Image) (o : DiffOptions) (w h x y : ℕ)
    (st : ScanState) :
    (scalar_pixel_step img1 img2 o w h x y st).cnt =
      st.cnt + (if pixelFlag img1 img2 o w h x y then 1 else 0) := by
  simp only [scalar_pixel_step, pixelFlag, pixelState]
  split_ifs <;> simp_all [beq_iff_eq]

theorem px_scalar_step_self (img1 img2 : Image) (o : DiffOptions) (w h x y : ℕ)
    (st : ScanState) (hlen : (y * w + x) * 4 + 3 < st.out.length) :
    px (scalar_pixel_step img1 img2 o w h x y st).out (y * w + x) =
      scalarRenderBytes img1 img2 o w h x y := by
  have e : y * w * 4 + x * 4 = (y * w + x) * 4 := by ring
  simp only [scalar_pixel_step, scalarRenderBytes, pixelState, e]
  split_ifs <;>
    simp only [draw_gray_pixel_fast, write_color, grayScalarBytes, colorBytes,
      px_write4_self _ _ _ _ _ _ hlen]

theorem px_scalar_step_ne (img1 img2 : Image) (o : DiffOptions) (w h x y q : ℕ)
    (st : ScanState) (hq : q ≠ y * w + x) :
    px (scalar_pixel_step img1 img2 o w h x y st).out q = px st.out q := by
  have e : y * w * 4 + x * 4 = (y * w + x) * 4 := by ring
  simp only [scalar_pixel_step, e]
  split_ifs <;>
    simp only [draw_gray_pixel_fast, write_color, px_write4_ne _ _ _ _ _ _ _ hq]

/- Folds of scalar pixel steps over a list of columns. -/

theorem len_rowFold (img1 img2 : Image) (o : DiffOptions) (w h y : ℕ) :
    ∀ (xs : List ℕ) (st : ScanState),
      (xs.foldl (fun st1 x => scalar_pixel_step img1 img2 o w h x y st1) st).out.length =
        st.out.length
  | [], _ => rfl
  | x :: xs, st => by
    rw [List.foldl_cons, len_rowFold img1 img2 o w h y xs, len_scalar_step]

theorem cnt_rowFold (img1 img2 : Image) (o : DiffOptions) (w h y : ℕ) :
    ∀ (xs : List ℕ) (st : ScanState),
      (xs.foldl (fun st1 x => scalar_pixel_step img1 img2 o w h x y st1) st).cnt =
        st.cnt + (xs.map (fun x => if pixelFlag img1 img2 o w h x y then 1 else 0)).sum
  | [], _ => by simp
  | x :: xs, st => by
    rw [List.foldl_cons, cnt_rowFold img1 img2 o w h y xs, cnt_scalar_step]
    simp [Nat.add_assoc]

theorem px_rowFold_ne (img1 img2 : Image) (o : DiffOptions) (w h y q : ℕ) :
    ∀ (xs : List ℕ) (st : ScanState), (∀ x ∈ xs, q ≠ y * w + x) →
      px (xs.foldl (fun st1 x => scalar_pixel_step img1 img2 o w h x y st1) st).out q =
        px st.out q
  | [], _, _ => rfl
  | x :: xs, st, hq => by
    rw [List.foldl_cons, px_rowFold_ne img1 img2 o w h y q xs _
      (fun x1 h1 => hq x1 (List.mem_cons_of_mem x h1)),
      px_scalar_step_ne img1 img2 o w h x y q st (hq x (List.mem_cons_self x xs))]

theorem px_rowFold_mem (img1 img2 : Image) (o : DiffOptions) (w h y x : ℕ)
    (l1 l2 : List ℕ) (st : ScanState) (hx : x ∉ l2)
    (hlen : (y * w + x) * 4 + 3 < st.out.length) :
    px ((l1 ++ x :: l2).foldl
      (fun st1 x1 => scalar_pixel_step img1 img2 o w h x1 y st1) st).out (y * w + x) =
      scalarRenderBytes img1 img2 o w h x y := by
  rw [List.foldl_append, List.foldl_cons]
  rw [px_rowFold_ne img1 img2 o w h y (y * w + x) l2 _
    (fun x1 h1 => by
      have : x ≠ x1 := fun he => hx (he ▸ h1)
      omega)]
  exact px_scalar_step_self img1 img2 o w h x y _
    (by rw [len_rowFold]; exact hlen)

/- The SIMD block step: length, count and pixel characterization. -/

theorem blockAllEq_lane (img1 img2 : Image) (base : ℕ)
    (hb : blockAllEq img1 img2 base = true) (i : ℕ) (hi : i < 8) :
    load_pixel_u32 img1 (base + i * 4) = load_pixel_u32 img2 (base + i * 4) := by
  simp only [blockAllEq, List.all_eq_true, List.mem_range, beq_iff_eq] at hb
  exact hb i hi

theorem block_fold_eq_rowFold (img1 img2 : Image) (o : DiffOptions) (w h xb y : ℕ)
    (st : ScanState) :
    (List.range 8).foldl (fun st1 i => simd_lane_step img1 img2 o w h xb y st1 i) st =
      ((List.range 8).map (fun i => xb + i)).foldl
        (fun st1 x => scalar_pixel_step img1 img2 o w h x y st1) st := by
  rw [List.foldl_map]
  simp only [simd_lane_step_eq]

theorem len_block_step (img1 img2 : Image) (o : DiffOptions) (w h xb y : ℕ)
    (st : ScanState) :
    (simd_block_step img1 img2 o w h xb y st).out.length = st.out.length := by
  simp only [simd_block_step]
  split_ifs
  · exact length_draw8 ..
  · rw [block_fold_eq_rowFold, len_rowFold]

theorem pixelState_eq_of_eq (img1 img2 : Image) (o : DiffOptions) (w h x y : ℕ)
    (heq : load_pixel_u32 img1 (y * w * 4 + x * 4) = load_pixel_u32 img2 (y * w * 4 + x * 4)) :
    pixelState img1 img2 o w h x y = .unchanged := by
  simp [pixelState, heq]

theorem cnt_block_step (img1 img2 : Image) (o : DiffOptions) (w h xb y : ℕ)
    (st : ScanState) :
    (simd_block_step img1 img2 o w h xb y st).cnt =
      st.cnt + ((List.range 8).map
        (fun i => if pixelFlag img1 img2 o w h (xb + i) y then 1 else 0)).sum := by
  simp only [simd_block_step]
  split_ifs with hb
  · have hz : ((List.range 8).map
        (fun i => if pixelFlag img1 img2 o w h (xb + i) y then 1 else 0)).sum = 0 := by
      refine List.sum_eq_zero ?_
      intro v hv
      obtain ⟨i, hi, rfl⟩ := List.mem_map.mp hv
      have hi8 : i < 8 := List.mem_range.mp hi
      have he : y * w * 4 + xb * 4 + i * 4 = y * w * 4 + (xb + i) * 4 := by ring
      have hpe := blockAllEq_lane img1 img2 (y * w * 4 + xb * 4) hb i hi8
      rw [he] at hpe
      rw [pixelFlag, pixelState_eq_of_eq img1 img2 o w h (xb + i) y hpe]
      simp
    rw [hz]
    simp
  · rw [block_fold_eq_rowFold, cnt_rowFold]
    simp only [List.map_map, Function.comp_def]

theorem px_block_step_ne (img1 img2 : Image) (o : DiffOptions) (w h xb y q : ℕ)
    (st : ScanState) (hq : q < y * w + xb ∨ y * w + xb + 8 ≤ q) :
    px (simd_block_step img1 img2 o w h xb y st).out q = px st.out q := by
  simp only [simd_block_step]
  have e : y * w * 4 + xb * 4 = (y * w + xb) * 4 := by ring
  split_ifs
  · rw [e, px_draw8_ne _ _ _ _ _ hq]
  · rw [block_fold_eq_rowFold, px_rowFold_ne]
    intro x hx
    obtain ⟨i, hi, rfl⟩ := List.mem_map.mp hx
    have : i < 8 := List.mem_range.mp hi
    omega

theorem px_rowFold_nodup (img1 img2 : Image) (o : DiffOptions) (w h y x : ℕ)
    (xs : List ℕ) (st : ScanState) (hmem : x ∈ xs) (hnd : xs.Nodup)
    (hlen : (y * w + x) * 4 + 3 < st.out.length) :
    px (xs.foldl (fun st1 x1 => scalar_pixel_step img1 img2 o w h x1 y st1) st).out
      (y * w + x) = scalarRenderBytes img1 img2 o w h x y := by
  obtain ⟨l1, l2, rfl⟩ := List.append_of_mem hmem
  have hx2 : x ∉ l2 := (List.nodup_cons.mp (hnd.sublist (List.sublist_append_right l1 _))).1
  exact px_rowFold_mem img1 img2 o w h y x l1 l2 st hx2 hlen

theorem px_block_step_self (img1 img2 : Image) (o : DiffOptions) (w h xb y i : ℕ)
    (st : ScanState) (hi : i < 8) (hlen : (y * w + xb + 7) * 4 + 3 < st.out.length) :
    px (simd_block_step img1 img2 o w h xb y st).out (y * w + (xb + i)) =
      (if blockAllEq img1 img2 (y * w * 4 + xb * 4) then
        gray8Bytes img1 ((y * w + (xb + i)) * 4) o.alpha
      else scalarRenderBytes img1 img2 o w h (xb + i) y) := by
  simp only [simd_block_step]
  have e : y * w * 4 + xb * 4 = (y * w + xb) * 4 := by ring
  have e2 : y * w + (xb + i) = (y * w + xb) + i := by ring
  split_ifs
  · rw [e2, e, px_draw8_lane img1 (y * w + xb) i o.alpha st.out hi hlen]
  · rw [block_fold_eq_rowFold]
    refine px_rowFold_nodup img1 img2 o w h y (xb + i) _ st ?_ ?_ ?_
    · exact List.mem_map.mpr ⟨i, List.mem_range.mpr hi, rfl⟩
    · exact (List.nodup_range 8).map (fun a b hab => by omega)
    · omega

/- Folds of SIMD blocks over the block indices of a row. -/

theorem len_blocksFold (img1 img2 : Image) (o : DiffOptions) (w h y : ℕ) :
    ∀ (bs : List ℕ) (st : ScanState),
      (bs.foldl (fun st1 b => simd_block_step img1 img2 o w h (b * 8) y st1) st).out.length =
        st.out.length
  | [], _ => rfl
  | b :: bs, st => by
    rw [List.foldl_cons, len_blocksFold img1 img2 o w h y bs, len_block_step]

theorem cnt_blocksFold (img1 img2 : Image) (o : DiffOptions) (w h y : ℕ) :
    ∀ (bs : List ℕ) (st : ScanState),
      (bs.foldl (fun st1 b => simd_block_step img1 img2 o w h (b * 8) y st1) st).cnt =
        st.cnt + (bs.map (fun b => ((List.range 8).map
          (fun i => if pixelFlag img1 img2 o w h (b * 8 + i) y then 1 else 0)).sum)).sum
  | [], _ => by simp
  | b :: bs, st => by
    rw [List.foldl_cons, cnt_blocksFold img1 img2 o w h y bs, cnt_block_step]
    simp [Nat.add_assoc]

theorem px_blocksFold_ne (img1 img2 : Image) (o : DiffOptions) (w h y q : ℕ) :
    ∀ (bs : List ℕ) (st : ScanState),
      (∀ b ∈ bs, q < y * w + b * 8 ∨ y * w + b * 8 + 8 ≤ q) →
      px (bs.foldl (fun st1 b => simd_block_step img1 img2 o w h (b * 8) y st1) st).out q =
        px st.out q
  | [], _, _ => rfl
  | b :: bs, st, hq => by
    rw [List.foldl_cons, px_blocksFold_ne img1 img2 o w h y q bs _
      (fun b1 h1 => hq b1 (List.mem_cons_of_mem b h1)),
      px_block_step_ne img1 img2 o w h (b * 8) y q st (hq b (List.mem_cons_self b bs))]

/- Characterization of one full row of the batched scan. -/

theorem rem_fold_eq (img1 img2 : Image) (o : DiffOptions) (w h y c n : ℕ)
    (st : ScanState) :
    (List.range n).foldl (fun st1 k => scalar_pixel_step img1 img2 o w h (c + k) y st1) st =
      ((List.range n).map (fun k => c + k)).foldl
        (fun st1 x => scalar_pixel_step img1 img2 o w h x y st1) st := by
  rw [List.foldl_map]

theorem len_process_row (img1 img2 : Image) (o : DiffOptions) (w h y : ℕ)
    (st : ScanState) :
    (process_row img1 img2 o w h y st).out.length = st.out.length := by
  simp only [process_row]
  rw [rem_fold_eq, len_rowFold, len_blocksFold]

/-- Sum of f over one 8-wide chunk of columns. -/
def chunk8 (f : ℕ → ℕ) (b : ℕ) : ℕ := ((List.range 8).map (fun i => f (b * 8 + i))).sum

theorem chunk8_sum (f : ℕ → ℕ) :
    ∀ n : ℕ, ((List.range n).map (chunk8 f)).sum = ((List.range (n * 8)).map f).sum
  | 0 => by simp
  | n + 1 => by
    rw [List.range_succ, List.map_append, List.sum_append, chunk8_sum f n,
      show (n + 1) * 8 = n * 8 + 8 from by ring, List.range_add (n * 8) 8,
      List.map_append, List.sum_append]
    simp [chunk8, List.map_map, Function.comp_def]

theorem cnt_process_row (img1 img2 : Image) (o : DiffOptions) (w h y : ℕ)
    (st : ScanState) :
    (process_row img1 img2 o w h y st).cnt =
      st.cnt + ((List.range w).map
        (fun x => if pixelFlag img1 img2 o w h x y then 1 else 0)).sum := by
  simp only [process_row]
  rw [rem_fold_eq, cnt_rowFold, cnt_blocksFold, Nat.add_assoc]
  congr 1
  have hb : (fun b => ((List.range 8).map
      (fun i => if pixelFlag img1 img2 o w h (b * 8 + i) y then 1 else 0)).sum) =
      chunk8 (fun x => if pixelFlag img1 img2 o w h x y then 1 else 0) := rfl
  rw [hb, List.map_map]
  have hsplit : w = w / 8 * 8 + (w - w / 8 * 8) := by
    have := Nat.div_mul_le_self w 8
    omega
  have hr : List.range w =
      List.range (w / 8 * 8) ++ (List.range (w - w / 8 * 8)).map (fun k => w / 8 * 8 + k) := by
    conv_lhs => rw [hsplit]
    exact List.range_add (w / 8 * 8) (w - w / 8 * 8)
  rw [hr, List.map_append, List.sum_append, chunk8_sum]
  simp [List.map_map, Function.comp_def]

theorem block_end_le {b w : ℕ} (hb : b < w / 8) : (b + 1) * 8 ≤ w := by
  have h1 : b + 1 ≤ w / 8 := hb
  have h2 : (b + 1) * 8 ≤ w / 8 * 8 := Nat.mul_le_mul_right 8 h1
  have h3 : w / 8 * 8 ≤ w := Nat.div_mul_le_self w 8
  omega

theorem px_blocksFold_self (img1 img2 : Image) (o : DiffOptions) (w h y x : ℕ) :
    ∀ (nb : ℕ) (st : ScanState), x < nb * 8 → nb * 8 ≤ w → y < h →
      st.out.length = w * h * 4 →
      px ((List.range nb).foldl
        (fun st1 b => simd_block_step img1 img2 o w h (b * 8) y st1) st).out (y * w + x) =
        (if blockAllEq img1 img2 (y * w * 4 + x / 8 * 8 * 4) then
          gray8Bytes img1 ((y * w + x) * 4) o.alpha
        else scalarRenderBytes img1 img2 o w h x y)
  | 0, st, hx, _, _, _ => absurd hx (by omega)
  | nb + 1, st, hx, hw, hy, hlen => by
    rw [List.range_succ, List.foldl_append, List.foldl_cons, List.foldl_nil]
    by_cases hxe : x < nb * 8
    · rw [px_block_step_ne img1 img2 o w h (nb * 8) y _ _ (by omega)]
      exact px_blocksFold_self img1 img2 o w h y x nb st hxe (by omega) hy hlen
    · have hi8 : x - nb * 8 < 8 := by omega
      have hxi : x = nb * 8 + (x - nb * 8) := by omega
      have hdiv : x / 8 = nb := by omega
      have hlen2 : (y * w + nb * 8 + 7) * 4 + 3 <
          ((List.range nb).foldl
            (fun st1 b => simd_block_step img1 img2 o w h (b * 8) y st1) st).out.length := by
        rw [len_blocksFold, hlen]
        have : (y * w + (nb * 8 + 7)) * 4 + 3 < w * h * 4 :=
          pixel_pos_lt (by omega) hy
        omega
      rw [hxi]
      rw [px_block_step_self img1 img2 o w h (nb * 8) y (x - nb * 8) _ hi8
        (by exact hlen2)]
      rw [← hxi, hdiv]
  termination_by nb => nb

theorem px_process_row_self (img1 img2 : Image) (o : DiffOptions) (w h x y : ℕ)
    (st : ScanState) (hx : x < w) (hy : y < h) (hlen : st.out.length = w * h * 4) :
    px (process_row img1 img2 o w h y st).out (y * w + x) =
      pixelRenderBytes img1 img2 o w h x y := by
  simp only [process_row]
  rw [rem_fold_eq]
  by_cases hxs : x < w / 8 * 8
  · rw [px_rowFold_ne img1 img2 o w h y (y * w + x) _ _ (by
      intro x1 hx1
      obtain ⟨k, hk, rfl⟩ := List.mem_map.mp hx1
      omega)]
    rw [px_blocksFold_self img1 img2 o w h y x (w / 8) st hxs (Nat.div_mul_le_self w 8)
      hy hlen]
    simp only [pixelRenderBytes, inAllEqBlock]
    by_cases hbb : blockAllEq img1 img2 (y * w * 4 + x / 8 * 8 * 4) = true
    · rw [if_pos hbb, if_pos ⟨hxs, hbb⟩]
      congr 1
      ring
    · rw [if_neg hbb, if_neg (fun hc => hbb hc.2)]
  · rw [px_rowFold_nodup img1 img2 o w h y x _ _
      (List.mem_map.mpr ⟨x - w / 8 * 8, List.mem_range.mpr (by omega), by omega⟩)
      ((List.nodup_range _).map (fun a b hab => by omega))
      (by rw [len_blocksFold, hlen]; exact pixel_pos_lt hx hy)]
    simp only [pixelRenderBytes, inAllEqBlock]
    rw [if_neg (fun hc => hxs hc.1)]

theorem px_process_row_ne (img1 img2 : Image) (o : DiffOptions) (w h y q : ℕ)
    (st : ScanState) (hq : q < y * w ∨ y * w + w ≤ q) :
    px (process_row img1 img2 o w h y st).out q = px st.out q := by
  simp only [process_row]
  rw [rem_fold_eq]
  rw [px_rowFold_ne img1 img2 o w h y q _ _ (by
    intro x1 hx1
    obtain ⟨k, hk, rfl⟩ := List.mem_map.mp hx1
    have hk2 : k < w - w / 8 * 8 := List.mem_range.mp hk
    have h3 : w / 8 * 8 ≤ w := Nat.div_mul_le_self w 8
    omega)]
  rw [px_blocksFold_ne img1 img2 o w h y q _ _ (by
    intro b hb
    have hb2 : b < w / 8 := List.mem_range.mp hb
    have h4 : (b + 1) * 8 ≤ w := block_end_le hb2
    omega)]

/- Characterization of the full batched scan. -/

/-- Specification of `diff_count`: the number of pixels flagged as real
differences, summed row-major. -/
def diffCountSpec (img1 img2 : Image) (o : DiffOptions) (w h : ℕ) : ℕ :=
  ((List.range h).map (fun y => ((List.range w).map
    (fun x => if pixelFlag img1 img2 o w h x y then 1 else 0)).sum)).sum

theorem len_rowsFold (img1 img2 : Image) (o : DiffOptions) (w h : ℕ) :
    ∀ (ys : List ℕ) (st : ScanState),
      (ys.foldl (fun st1 y => process_row img1 img2 o w h y st1) st).out.length =
        st.out.length
  | [], _ => rfl
  | y :: ys, st => by
    rw [List.foldl_cons, len_rowsFold img1 img2 o w h ys, len_process_row]

theorem cnt_rowsFold (img1 img2 : Image) (o : DiffOptions) (w h : ℕ) :
    ∀ (ys : List ℕ) (st : ScanState),
      (ys.foldl (fun st1 y => process_row img1 img2 o w h y st1) st).cnt =
        st.cnt + (ys.map (fun y => ((List.range w).map
          (fun x => if pixelFlag img1 img2 o w h x y then 1 else 0)).sum)).sum
  | [], _ => by simp
  | y :: ys, st => by
    rw [List.foldl_cons, cnt_rowsFold img1 img2 o w h ys, cnt_process_row]
    simp [Nat.add_assoc]

theorem px_rowsFold_self (img1 img2 : Image) (o : DiffOptions) (w h x y : ℕ) :
    ∀ (n : ℕ) (st : ScanState), y < n → n ≤ h → x < w → st.out.length = w * h * 4 →
      px ((List.range n).foldl
        (fun st1 y1 => process_row img1 img2 o w h y1 st1) st).out (y * w + x) =
        pixelRenderBytes img1 img2 o w h x y
  | 0, st, hy, _, _, _ => absurd hy (by omega)
  | n + 1, st, hy, hn, hx, hlen => by
    rw [List.range_succ, List.foldl_append, List.foldl_cons, List.foldl_nil]
    by_cases hyn : y < n
    · rw [px_process_row_ne img1 img2 o w h n (y * w + x) _ (by
        have h1 : (y + 1) * w ≤ n * w := Nat.mul_le_mul_right w (by omega)
        have h2 : (y + 1) * w = y * w + w := by ring
        omega)]
      exact px_rowsFold_self img1 img2 o w h x y n st hyn (by omega) hx hlen
    · have hyeq : y = n := by omega
      subst hyeq
      exact px_process_row_self img1 img2 o w h x y _ hx
        (by omega)
        (by rw [len_rowsFold]; exact hlen)
  termination_by n => n

theorem diff_rgba_len (img1 img2 : Image) (w h : ℕ) (opts : Option DiffOptions) :
    (diff_rgba img1 img2 w h opts).output.length = w * h * 4 := by
  simp only [diff_rgba]
  rw [len_rowsFold]
  simp

theorem diff_rgba_cnt (img1 img2 : Image) (w h : ℕ) (opts : Option DiffOptions) :
    (diff_rgba img1 img2 w h opts).diff_count =
      diffCountSpec img1 img2 (opts.getD DiffOptions.default) w h := by
  simp only [diff_rgba, diffCountSpec]
  rw [cnt_rowsFold]
  simp

theorem diff_rgba_px (img1 img2 : Image) (w h : ℕ) (opts : Option DiffOptions)
    (x y : ℕ) (hx : x < w) (hy : y < h) :
    px (diff_rgba img1 img2 w h opts).output (y * w + x) =
      pixelRenderBytes img1 img2 (opts.getD DiffOptions.default) w h x y := by
  simp only [diff_rgba]
  exact px_rowsFold_self img1 img2 (opts.getD DiffOptions.default) w h x y h _ hy
    (le_refl h) hx (by simp)

/- Characterization of the pure scalar reference scan. -/

theorem len_row_scalar (img1 img2 : Image) (o : DiffOptions) (w h y : ℕ)
    (st : ScanState) :
    (process_row_scalar img1 img2 o w h y st).out.length = st.out.length := by
  simp only [process_row_scalar]
  rw [len_rowFold]

theorem cnt_row_scalar (img1 img2 : Image) (o : DiffOptions) (w h y : ℕ)
    (st : ScanState) :
    (process_row_scalar img1 img2 o w h y st).cnt =
      st.cnt + ((List.range w).map
        (fun x => if pixelFlag img1 img2 o w h x y then 1 else 0)).sum := by
  simp only [process_row_scalar]
  rw [cnt_rowFold]

theorem px_row_scalar_self (img1 img2 : Image) (o : DiffOptions) (w h x y : ℕ)
    (st : ScanState) (hx : x < w) (hlen : (y * w + x) * 4 + 3 < st.out.length) :
    px (process_row_scalar img1 img2 o w h y st).out (y * w + x) =
      scalarRenderBytes img1 img2 o w h x y := by
  simp only [process_row_scalar]
  exact px_rowFold_nodup img1 img2 o w h y x _ st (List.mem_range.mpr hx)
    (List.nodup_range w) hlen

theorem px_row_scalar_ne (img1 img2 : Image) (o : DiffOptions) (w h y q : ℕ)
    (st : ScanState) (hq : q < y * w ∨ y * w + w ≤ q) :
    px (process_row_scalar img1 img2 o w h y st).out q = px st.out q := by
  simp only [process_row_scalar]
  rw [px_rowFold_ne img1 img2 o w h y q _ _ (by
    intro x1 hx1
    have : x1 < w := List.mem_range.mp hx1
    omega)]

theorem len_rowsFold_scalar (img1 img2 : Image) (o : DiffOptions) (w h : ℕ) :
    ∀ (ys : List ℕ) (st : ScanState),
      (ys.foldl (fun st1 y => process_row_scalar img1 img2 o w h y st1) st).out.length =
        st.out.length
  | [], _ => rfl
  | y :: ys, st => by
    rw [List.foldl_cons, len_rowsFold_scalar img1 img2 o w h ys, len_row_scalar]

theorem cnt_rowsFold_scalar (img1 img2 : Image) (o : DiffOptions) (w h : ℕ) :
    ∀ (ys : List ℕ) (st : ScanState),
      (ys.foldl (fun st1 y => process_row_scalar img1 img2 o w h y st1) st).cnt =
        st.cnt + (ys.map (fun y => ((List.range w).map
          (fun x => if pixelFlag img1 img2 o w h x y then 1 else 0)).sum)).sum
  | [], _ => by simp
  | y :: ys, st => by
    rw [List.foldl_cons, cnt_rowsFold_scalar img1 img2 o w h ys, cnt_row_scalar]
    simp [Nat.add_assoc]

theorem px_rowsFold_scalar_self (img1 img2 : Image) (o : DiffOptions) (w h x y : ℕ) :
    ∀ (n : ℕ) (st : ScanState), y < n → n ≤ h → x < w → st.out.length = w * h * 4 →
      px ((List.range n).foldl
        (fun st1 y1 => process_row_scalar img1 img2 o w h y1 st1) st).out (y * w + x) =
        scalarRenderBytes img1 img2 o w h x y
  | 0, st, hy, _, _, _ => absurd hy (by omega)
  | n + 1, st, hy, hn, hx, hlen => by
    rw [List.range_succ, List.foldl_append, List.foldl_cons, List.foldl_nil]
    by_cases hyn : y < n
    · rw [px_row_scalar_ne img1 img2 o w h n (y * w + x) _ (by
        have h1 : (y + 1) * w ≤ n * w := Nat.mul_le_mul_right w (by omega)
        have h2 : (y + 1) * w = y * w + w := by ring
        omega)]
      exact px_rowsFold_scalar_self img1 img2 o w h x y n st hyn (by omega) hx hlen
    · have hyeq : y = n := by omega
      subst hyeq
      refine px_row_scalar_self img1 img2 o w h x y _ hx ?_
      rw [len_rowsFold_scalar, hlen]
      exact pixel_pos_lt hx (by omega)
  termination_by n => n

theorem diff_rgba_scalar_len (img1 img2 : Image) (w h : ℕ) (opts : Option DiffOptions) :
    (diff_rgba_scalar img1 img2 w h opts).output.length = w * h * 4 := by
  simp only [diff_rgba_scalar]
  rw [len_rowsFold_scalar]
  simp

theorem diff_rgba_scalar_cnt (img1 img2 : Image) (w h : ℕ) (opts : Option DiffOptions) :
    (diff_rgba_scalar img1 img2 w h opts).diff_count =
      diffCountSpec img1 img2 (opts.getD DiffOptions.default) w h := by
  simp only [diff_rgba_scalar, diffCountSpec]
  rw [cnt_rowsFold_scalar]
  simp

theorem diff_rgba_scalar_px (img1 img2 : Image) (w h : ℕ) (opts : Option DiffOptions)
    (x y : ℕ) (hx : x < w) (hy : y < h) :
    px (diff_rgba_scalar img1 img2 w h opts).output (y * w + x) =
      scalarRenderBytes img1 img2 (opts.getD DiffOptions.default) w h x y := by
  simp only [diff_rgba_scalar]
  exact px_rowsFold_scalar_self img1 img2 (opts.getD DiffOptions.default) w h x y h _
    hy (le_refl h) hx (by simp)

/- Claim-side definitions: predicates that state spec sentences, to be compared
with the code's behaviour. -/

/-- Follows the claim's words (C3): the number of non-center 3x3 border-clamped
neighbours of (x, y) whose luma delta from the center is exactly zero, plus
the border/corner bias of 1. -/
def zeroLumaNeighborCount (img : Image) (x y w h : ℕ) : ℕ :=
  edgeBias x y w h + ((neighborCoords x y w h).filter (fun c =>
    !(x == c.1 && y == c.2) &&
      (calculate_brightness_delta_fast (load_pixel_u32 img ((y * w + x) * 4))
        (load_pixel_u32 img ((c.2 * w + c.1) * 4)) == 0))).length

/-- The number of non-center 3x3 border-clamped neighbours of (x, y) that are
byte-identical to the center, plus the border/corner bias of 1 — the count the
classifier actually accumulates in `zeroes` (src/lib.rs:552-571). -/
def byteEqNeighborCount (img : Image) (x y w h : ℕ) : ℕ :=
  edgeBias x y w h + ((neighborCoords x y w h).filter (fun c =>
    !(x == c.1 && y == c.2) &&
      (load_pixel_u32 img ((y * w + x) * 4) ==
        load_pixel_u32 img ((c.2 * w + c.1) * 4)))).length

/-- Follows the claim's words (C4): the sibling test with luma equality in
place of the byte equality the code uses. -/
def lumaSiblingTest (img : Image) (x y w h : ℕ) : Bool :=
  decide (3 ≤ edgeBias x y w h + ((neighborCoords x y w h).filter (fun c =>
    !(x == c.1 && y == c.2) &&
      (lumaOf (load_pixel_u32 img ((c.2 * w + c.1) * 4)) ==
        lumaOf (load_pixel_u32 img ((y * w + x) * 4))))).length)

/-- Over-approximation of every (x, y) coordinate the anti-aliasing classifier
and its sibling sub-tests can read: the center, each scanned neighbour, and,
for every potential extremal coordinate, that coordinate and its own sibling
neighbourhood.  Each coordinate c is read as the 4 bytes at
`(c.2 * w + c.1) * 4 .. + 3`. -/
def aaReadCoords (x y w h : ℕ) : List (ℕ × ℕ) :=
  (x, y) :: neighborCoords x y w h ++
    (neighborCoords x y w h).flatMap (fun c => c :: neighborCoords c.1 c.2 w h)

/-- The render of one of the three output states at pixel (x, y): the
unchanged state renders gray (by the batched renderer inside fully-matching
8-pixel groups, by the scalar renderer elsewhere), the markers render their
configured color with alpha 255. -/
def renderOf (img1 img2 : Image) (o : DiffOptions) (w h x y : ℕ) :
    RenderState → List ℕ
  | .unchanged =>
    if inAllEqBlock img1 img2 w x y then gray8Bytes img1 (y * w * 4 + x * 4) o.alpha
    else grayScalarBytes img1 (y * w * 4 + x * 4) o.alpha
  | .aaMarker => colorBytes o.aa_color
  | .diffMarker => colorBytes o.diff_color

/- Auxiliary lemmas for the claim proofs. -/

theorem pixelFlag_false_of_eq (img1 img2 : Image) (o : DiffOptions) (w h x y : ℕ)
    (heq : load_pixel_u32 img1 (y * w * 4 + x * 4) =
      load_pixel_u32 img2 (y * w * 4 + x * 4)) :
    pixelFlag img1 img2 o w h x y = false := by
  rw [pixelFlag, pixelState_eq_of_eq img1 img2 o w h x y heq]
  rfl

theorem inAllEqBlock_load_eq (img1 img2 : Image) (w x y : ℕ)
    (hblk : inAllEqBlock img1 img2 w x y) :
    load_pixel_u32 img1 (y * w * 4 + x * 4) = load_pixel_u32 img2 (y * w * 4 + x * 4) := by
  obtain ⟨hx8, hb⟩ := hblk
  have hlane := blockAllEq_lane img1 img2 (y * w * 4 + x / 8 * 8 * 4) hb (x - x / 8 * 8)
    (by omega)
  have e : y * w * 4 + x / 8 * 8 * 4 + (x - x / 8 * 8) * 4 = y * w * 4 + x * 4 := by
    have : x / 8 * 8 ≤ x := Nat.div_mul_le_self x 8
    omega
  rwa [e] at hlane

theorem blockAllEq_self (img : Image) (base : ℕ) : blockAllEq img img base = true := by
  simp [blockAllEq, List.all_eq_true]

theorem delta_symm (pa pb : ℕ) :
    calculate_pixel_color_delta_fast pa pb = calculate_pixel_color_delta_fast pb pa := by
  simp only [calculate_pixel_color_delta_fast]
  ring

theorem maxDelta_mono (o1 o2 : DiffOptions) (h0 : 0 ≤ o1.threshold)
    (h12 : o1.threshold ≤ o2.threshold) : maxDeltaOf o1 ≤ maxDeltaOf o2 := by
  simp only [maxDeltaOf]
  have h2 : o1.threshold * o1.threshold ≤ o2.threshold * o2.threshold :=
    mul_self_le_mul_self h0 h12
  nlinarith

/- Early-exit behaviour of the classifier's scan. -/

theorem aaScan_ge3 (img : Image) (w x y bc : ℕ) :
    ∀ (coords : List (ℕ × ℕ)) (st : AAState), 3 ≤ st.zeroes →
      aaScan img w x y bc coords st = some st
  | [], st, _ => rfl
  | c :: rest, st, h => by
    have hstep : aaLoopStep img w x y bc st c = some st := by
      unfold aaLoopStep
      rw [if_pos (Or.inl h)]
    rw [aaScan, hstep]
    exact aaScan_ge3 img w x y bc rest st h

theorem aaLoopStep_zeroes_of_ne (img : Image) (w x y bc : ℕ) (st : AAState)
    (c : ℕ × ℕ) (hg : ¬(3 ≤ st.zeroes ∨ (x = c.1 ∧ y = c.2)))
    (hne : ¬bc = load_pixel_u32 img ((c.2 * w + c.1) * 4)) :
    ∃ st2, aaLoopStep img w x y bc st c = some st2 ∧ st2.zeroes = st.zeroes := by
  unfold aaLoopStep
  rw [if_neg hg, if_neg hne]
  refine ⟨_, rfl, ?_⟩
  rcases st with ⟨z, mn, mx⟩
  rcases mn with _ | ⟨m, mc⟩ <;> dsimp only <;>
    [skip; (split_ifs <;> dsimp only)] <;>
    (rcases mx with _ | ⟨mm, mmc⟩ <;> dsimp only <;> first
      | rfl
      | (split_ifs <;> rfl))

/-- The count of byte-equal neighbours among a coordinate list, as the scan
accumulates it. -/
def countEqFrom (img : Image) (w x y bc : ℕ) (coords : List (ℕ × ℕ)) : ℕ :=
  (coords.filter (fun c =>
    !(x == c.1 && y == c.2) &&
      (bc == load_pixel_u32 img ((c.2 * w + c.1) * 4)))).length

theorem aaScan_count (img : Image) (w x y bc : ℕ) :
    ∀ (coords : List (ℕ × ℕ)) (st : AAState),
      3 ≤ st.zeroes + countEqFrom img w x y bc coords →
      aaScan img w x y bc coords st = none ∨
        ∃ st2, aaScan img w x y bc coords st = some st2 ∧ 3 ≤ st2.zeroes
  | [], st, h => by
    right
    exact ⟨st, rfl, by simpa [countEqFrom] using h⟩
  | c :: rest, st, h => by
    by_cases hz : 3 ≤ st.zeroes
    · right
      exact ⟨st, aaScan_ge3 img w x y bc (c :: rest) st hz, hz⟩
    · by_cases hcen : x = c.1 ∧ y = c.2
      · have hstep : aaLoopStep img w x y bc st c = some st := by
          unfold aaLoopStep
          rw [if_pos (Or.inr hcen)]
        rw [aaScan, hstep]
        refine aaScan_count img w x y bc rest st ?_
        have hflt : countEqFrom img w x y bc (c :: rest) = countEqFrom img w x y bc rest := by
          simp [countEqFrom, List.filter_cons, hcen.1, hcen.2]
        omega
      · by_cases heq : bc = load_pixel_u32 img ((c.2 * w + c.1) * 4)
        · have hcnt : countEqFrom img w x y bc (c :: rest) =
              countEqFrom img w x y bc rest + 1 := by
            have hc1 : (x == c.1 && y == c.2) = false := by
              rcases c with ⟨c1, c2⟩
              simp only [Bool.and_eq_false_iff, beq_eq_false_iff_ne]
              by_cases hx1 : x = c1
              · right
                intro hy1
                exact hcen ⟨hx1, hy1⟩
              · left
                exact hx1
            simp [countEqFrom, List.filter_cons, hc1, heq, not_and_or.mp hcen]
          by_cases h3 : 3 ≤ st.zeroes + 1
          · left
            have hstep : aaLoopStep img w x y bc st c = none := by
              unfold aaLoopStep
              rw [if_neg (by tauto), if_pos heq, if_pos h3]
            rw [aaScan, hstep]
          · have hstep : aaLoopStep img w x y bc st c =
                some { st with zeroes := st.zeroes + 1 } := by
              unfold aaLoopStep
              rw [if_neg (by tauto), if_pos heq, if_neg h3]
            rw [aaScan, hstep]
            refine aaScan_count img w x y bc rest _ ?_
            simp only []
            omega
        · obtain ⟨st2, hstep, hz2⟩ :=
            aaLoopStep_zeroes_of_ne img w x y bc st c (by tauto) heq
          rw [aaScan, hstep]
          refine aaScan_count img w x y bc rest st2 ?_
          have hcnt : countEqFrom img w x y bc (c :: rest) =
              countEqFrom img w x y bc rest := by
            simp [countEqFrom, List.filter_cons, heq]
          omega

/- Concrete images used by the witnesses and counterexamples. -/

/-- An 8x1 image of identical pixels (0, 0, 200, 255). -/
def imgG8 : Image := (List.replicate 8 [0, 0, 200, 255]).flatten

/-- A 9x1 image of identical pixels (0, 0, 200, 255). -/
def imgG9 : Image := (List.replicate 9 [0, 0, 200, 255]).flatten

/-- Options with a strong unchanged-render blend (alpha 0.9). -/
def opts9 : DiffOptions := ⟨0.1, false, 0.9, (255, 255, 0), (255, 0, 255), none⟩

/-- Options with anti-aliasing detection enabled. -/
def optsAA : DiffOptions := ⟨0.1, true, 0.1, (255, 255, 0), (255, 0, 255), none⟩

/-- A 3x3 all-white image with an opaque black center pixel. -/
def imgA7 : Image :=
  [[255, 255, 255, 255], [255, 255, 255, 255], [255, 255, 255, 255],
   [255, 255, 255, 255], [0, 0, 0, 255], [255, 255, 255, 255],
   [255, 255, 255, 255], [255, 255, 255, 255], [255, 255, 255, 255]].flatten

/-- A 3x3 all-white image. -/
def imgB7 : Image := (List.replicate 9 [255, 255, 255, 255]).flatten

/-- A 3x3 image with a transparent center, three transparent (but
byte-distinct) top neighbours, and opaque black elsewhere. -/
def imgA3 : Image :=
  [[1, 0, 0, 0], [2, 0, 0, 0], [3, 0, 0, 0],
   [0, 0, 0, 255], [0, 0, 0, 0], [0, 0, 0, 255],
   [0, 0, 0, 255], [0, 0, 0, 255], [0, 0, 0, 255]].flatten

/-- A 3x3 image with an opaque black center, transparent byte-distinct
neighbours and one almost-black opaque neighbour at (2, 1). -/
def imgA4 : Image :=
  [[1, 0, 0, 0], [2, 0, 0, 0], [3, 0, 0, 0],
   [9, 0, 0, 0], [0, 0, 0, 255], [0, 0, 1, 255],
   [5, 0, 0, 0], [6, 0, 0, 0], [7, 0, 0, 0]].flatten

/-- A uniform opaque gray 3x3 image. -/
def imgU3 : Image := (List.replicate 9 [10, 20, 30, 255]).flatten

/-- A 2x1 image: opaque black then almost-black. -/
def imgW2 : Image := [0, 0, 0, 255, 1, 0, 0, 255]

/-- C3, amended claim: the short-circuit condition of the classifier counts
neighbours byte-identical to the center (not neighbours at zero luma delta):
whenever the border bias plus the number of byte-identical neighbours reaches
3, the classifier returns false. -/
theorem C3_zero_sibling_short_circuit (img1 img2 : Image) (x y w h : ℕ)
    (h3 : 3 ≤ byteEqNeighborCount img1 x y w h) :
    is_pixel_antialiased_optimized img1 img2 x y w h = false := by
  simp only [is_pixel_antialiased_optimized]
  have hcnt := aaScan_count img1 w x y (load_pixel_u32 img1 ((y * w + x) * 4))
    (neighborCoords x y w h) ⟨edgeBias x y w h, none, none⟩
    (by
      have h1 : byteEqNeighborCount img1 x y w h = edgeBias x y w h +
          countEqFrom img1 w x y (load_pixel_u32 img1 ((y * w + x) * 4))
            (neighborCoords x y w h) := rfl
      have h2 : ({ zeroes := edgeBias x y w h, minD := none, maxD := none } :
          AAState).zeroes = edgeBias x y w h := rfl
      omega)
  rcases hcnt with hnone | ⟨st2, hsome, hz⟩
  · rw [hnone]
  · rw [hsome]
    simp only []
    rw [if_pos hz]

/-- C3, witness: a uniform 3x3 image has 8 byte-identical neighbours around
the center, so the amended short-circuit fires and the classifier answers
false. -/
theorem C3_zero_sibling_short_circuit_witness :
    3 ≤ byteEqNeighborCount imgU3 1 1 3 3 ∧
    is_pixel_antialiased_optimized imgU3 imgU3 1 1 3 3 = false :=
  ⟨by decide, C3_zero_sibling_short_circuit imgU3 imgU3 1 1 3 3 (by decide)⟩

/-- C3, counterexample: in `imgA3` the center (1, 1) has three neighbours with
exactly zero luma delta (transparent pixels with different bytes), yet the
classifier classifies the pixel as anti-aliased (true), not false as the claim
requires: the code short-circuits on byte-identical neighbours, not on
zero-luma-delta neighbours. -/
theorem C3_counterexample :
    3 ≤ zeroLumaNeighborCount imgA3 1 1 3 3 ∧
    is_pixel_antialiased_optimized imgA3 imgB7 1 1 3 3 = true := by
  have hnc : neighborCoords 1 1 3 3 =
      [(0, 0), (1, 0), (2, 0), (0, 1), (1, 1), (2, 1), (0, 2), (1, 2), (2, 2)] := by
    decide
  have l16 : load_pixel_u32 imgA3 16 = 0 := by decide
  have l00 : load_pixel_u32 imgA3 0 = 1 := by decide
  have l10 : load_pixel_u32 imgA3 4 = 2 := by decide
  have l20 : load_pixel_u32 imgA3 8 = 3 := by decide
  have l01 : load_pixel_u32 imgA3 12 = 4278190080 := by decide
  have l21 : load_pixel_u32 imgA3 20 = 4278190080 := by decide
  have l02 : load_pixel_u32 imgA3 24 = 4278190080 := by decide
  have l12 : load_pixel_u32 imgA3 28 = 4278190080 := by decide
  have l22 : load_pixel_u32 imgA3 32 = 4278190080 := by decide
  have bT1 : (calculate_brightness_delta_fast 0 1 == 0) = true := by
    norm_num [calculate_brightness_delta_fast, lumaOf, lumaWhite, chR, chG, chB, chA]
  have bT2 : (calculate_brightness_delta_fast 0 2 == 0) = true := by
    norm_num [calculate_brightness_delta_fast, lumaOf, lumaWhite, chR, chG, chB, chA]
  have bT3 : (calculate_brightness_delta_fast 0 3 == 0) = true := by
    norm_num [calculate_brightness_delta_fast, lumaOf, lumaWhite, chR, chG, chB, chA]
  have bK : (calculate_brightness_delta_fast 0 4278190080 == 0) = false := by
    norm_num [calculate_brightness_delta_fast, lumaOf, lumaWhite, chR, chG, chB, chA,
      Y_R, Y_G, Y_B]
  constructor
  · simp only [zeroLumaNeighborCount, hnc, edgeBias]
    norm_num [List.filter_cons, l16, l00, l10, l20, l01, l21, l02, l12, l22,
      bT1, bT2, bT3, bK]
  · norm_num +decide [is_pixel_antialiased_optimized, aaScan, aaLoopStep,
      neighborCoords, has_many_siblings_optimized, sibScan, edgeBias,
      load_pixel_u32, getB, calculate_brightness_delta_fast, lumaOf, lumaWhite,
      chR, chG, chB, chA, Y_R, Y_G, Y_B, imgA3, imgB7, List.replicate]

/-- General form of the classifier's final stage: when the 3x3 scan completes
below the zero-count limit with defined extremal neighbours, the
classification is exactly the sibling-test condition of src/lib.rs:595-598. -/
theorem aa_final_eq (img1 img2 : Image) (x y w h : ℕ) (st : AAState)
    (d1 d2 : ℚ) (c1 c2 : ℕ × ℕ)
    (hscan : aaScan img1 w x y (load_pixel_u32 img1 ((y * w + x) * 4))
      (neighborCoords x y w h) ⟨edgeBias x y w h, none, none⟩ = some st)
    (hz : st.zeroes < 3) (hmin : st.minD = some (d1, c1)) (hmax : st.maxD = some (d2, c2)) :
    is_pixel_antialiased_optimized img1 img2 x y w h =
      ((has_many_siblings_optimized img1 c1.1 c1.2 w h ||
        has_many_siblings_optimized img1 c2.1 c2.2 w h) &&
       (has_many_siblings_optimized img2 c1.1 c1.2 w h ||
        has_many_siblings_optimized img2 c2.1 c2.2 w h)) := by
  simp only [is_pixel_antialiased_optimized, hscan]
  rw [if_neg (by omega), hmin, hmax]

/-- C4, amended claim: provided the classifier's 3x3 scan completes with fewer
than 3 byte-identical neighbours and a defined minimum/maximum delta
neighbour, the pixel is classified as anti-aliased iff the byte-equality
sibling test (`has_many_siblings_optimized`, not the luma-equality test of the
claim) passes at the min- or max-delta position in image A, and at the min- or
max-delta position in image B. -/
theorem C4_sibling_iff (img1 img2 : Image) (x y w h : ℕ) (st : AAState)
    (d1 d2 : ℚ) (c1 c2 : ℕ × ℕ)
    (hscan : aaScan img1 w x y (load_pixel_u32 img1 ((y * w + x) * 4))
      (neighborCoords x y w h) ⟨edgeBias x y w h, none, none⟩ = some st)
    (hz : st.zeroes < 3) (hmin : st.minD = some (d1, c1)) (hmax : st.maxD = some (d2, c2)) :
    is_pixel_antialiased_optimized img1 img2 x y w h =
      ((has_many_siblings_optimized img1 c1.1 c1.2 w h ||
        has_many_siblings_optimized img1 c2.1 c2.2 w h) &&
       (has_many_siblings_optimized img2 c1.1 c1.2 w h ||
        has_many_siblings_optimized img2 c2.1 c2.2 w h)) :=
  aa_final_eq img1 img2 x y w h st d1 d2 c1 c2 hscan hz hmin hmax

/-- C4, witness: a 2x1 image whose scan ends with zeroes = 1 and the single
neighbour (1, 0) as both extremal positions; the classification equals the
sibling-test condition. -/
theorem C4_sibling_iff_witness :
    is_pixel_antialiased_optimized imgW2 imgW2 0 0 2 1 =
      ((has_many_siblings_optimized imgW2 1 0 2 1 ||
        has_many_siblings_optimized imgW2 1 0 2 1) &&
       (has_many_siblings_optimized imgW2 1 0 2 1 ||
        has_many_siblings_optimized imgW2 1 0 2 1)) := by
  refine C4_sibling_iff imgW2 imgW2 0 0 2 1
    ⟨1, some (0 - Y_R, (1, 0)), some (0 - Y_R, (1, 0))⟩ (0 - Y_R) (0 - Y_R)
    (1, 0) (1, 0) ?_ (by decide) rfl rfl
  have hnc : neighborCoords 0 0 2 1 = [(0, 0), (1, 0)] := by decide
  have l0 : load_pixel_u32 imgW2 0 = 4278190080 := by decide
  have l1 : load_pixel_u32 imgW2 4 = 4278190081 := by decide
  norm_num [hnc, aaScan, aaLoopStep, edgeBias, l0, l1,
    calculate_brightness_delta_fast, lumaOf, lumaWhite, chR, chG, chB, chA,
    Y_R, Y_G, Y_B]

set_option maxHeartbeats 2000000 in
/-- C4, counterexample: at the center of `imgA4` against all-white `imgB7`,
the color delta exceeds the default threshold, the scan ends with min
position (0, 0) and max position (2, 1), and the claim's luma-equality
sibling test passes at the min position in both images — yet the classifier
answers false, because the code's sibling test uses byte equality, which
fails at both extremal positions in `imgA4`. -/
theorem C4_counterexample :
    calculate_pixel_color_delta_fast (load_pixel_u32 imgA4 16) (load_pixel_u32 imgB7 16) >
      35215 * ((0.1 : ℚ) * 0.1) ∧
    aaScan imgA4 3 1 1 (load_pixel_u32 imgA4 16) (neighborCoords 1 1 3 3)
      ⟨edgeBias 1 1 3 3, none, none⟩ =
      some ⟨0, some (0 - lumaWhite, (0, 0)), some (0 - Y_B, (2, 1))⟩ ∧
    (lumaSiblingTest imgA4 0 0 3 3 || lumaSiblingTest imgA4 2 1 3 3) = true ∧
    (lumaSiblingTest imgB7 0 0 3 3 || lumaSiblingTest imgB7 2 1 3 3) = true ∧
    is_pixel_antialiased_optimized imgA4 imgB7 1 1 3 3 = false := by
  have hnc : neighborCoords 1 1 3 3 =
      [(0, 0), (1, 0), (2, 0), (0, 1), (1, 1), (2, 1), (0, 2), (1, 2), (2, 2)] := by
    decide
  have hn00 : neighborCoords 0 0 3 3 = [(0, 0), (1, 0), (0, 1), (1, 1)] := by decide
  have hn21 : neighborCoords 2 1 3 3 =
      [(1, 0), (2, 0), (1, 1), (2, 1), (1, 2), (2, 2)] := by decide
  have a00 : load_pixel_u32 imgA4 0 = 1 := by decide
  have a10 : load_pixel_u32 imgA4 4 = 2 := by decide
  have a20 : load_pixel_u32 imgA4 8 = 3 := by decide
  have a01 : load_pixel_u32 imgA4 12 = 9 := by decide
  have a11 : load_pixel_u32 imgA4 16 = 4278190080 := by decide
  have a21 : load_pixel_u32 imgA4 20 = 4278255616 := by decide
  have a02 : load_pixel_u32 imgA4 24 = 5 := by decide
  have a12 : load_pixel_u32 imgA4 28 = 6 := by decide
  have a22 : load_pixel_u32 imgA4 32 = 7 := by decide
  have bW : ∀ p ∈ [0, 4, 8, 12, 16, 20, 24, 28, 32],
      load_pixel_u32 imgB7 p = 4294967295 := by decide
  refine ⟨?_, ?_, ?_, ?_, ?_⟩
  · rw [a11, bW 16 (by decide)]
    norm_num [calculate_pixel_color_delta_fast, blendChan, chR, chG, chB, chA,
      Y_R, Y_G, Y_B, I_R, I_G, I_B, Q_R, Q_G, Q_B,
      YIQ_Y_WEIGHT, YIQ_I_WEIGHT, YIQ_Q_WEIGHT]
  · norm_num +decide [hnc, aaScan, aaLoopStep, edgeBias,
      a00, a10, a20, a01, a11, a21, a02, a12, a22,
      calculate_brightness_delta_fast, lumaOf, lumaWhite, chR, chG, chB, chA,
      Y_R, Y_G, Y_B]
  · norm_num +decide [lumaSiblingTest, hn00, hn21, edgeBias, List.filter_cons,
      a00, a10, a20, a01, a11, a21, a02, a12, a22,
      lumaOf, lumaWhite, chR, chG, chB, chA, Y_R, Y_G, Y_B]
  · norm_num +decide [lumaSiblingTest, hn00, hn21, edgeBias, List.filter_cons,
      bW 0 (by decide), bW 4 (by decide), bW 8 (by decide), bW 12 (by decide),
      bW 16 (by decide), bW 20 (by decide), bW 24 (by decide), bW 28 (by decide),
      bW 32 (by decide), lumaOf, lumaWhite, chR, chG, chB, chA, Y_R, Y_G, Y_B]
  · have hsc : aaScan imgA4 3 1 1 (load_pixel_u32 imgA4 16) (neighborCoords 1 1 3 3)
        ⟨edgeBias 1 1 3 3, none, none⟩ =
        some ⟨0, some (0 - lumaWhite, (0, 0)), some (0 - Y_B, (2, 1))⟩ := by
      norm_num +decide [hnc, aaScan, aaLoopStep, edgeBias,
        a00, a10, a20, a01, a11, a21, a02, a12, a22,
        calculate_brightness_delta_fast, lumaOf, lumaWhite, chR, chG, chB, chA,
        Y_R, Y_G, Y_B]
    rw [show (16 : ℕ) = (1 * 3 + 1) * 4 from by norm_num] at hsc
    rw [aa_final_eq imgA4 imgB7 1 1 3 3 _ (0 - lumaWhite) (0 - Y_B) (0, 0) (2, 1)
      hsc (by decide) rfl rfl]
    have s1 : has_many_siblings_optimized imgA4 0 0 3 3 = false := by decide
    have s2 : has_many_siblings_optimized imgA4 2 1 3 3 = false := by decide
    rw [s1, s2]
    rfl

/-- A uniform 2x2 image. -/
def imgU22 : Image := (List.replicate 4 [0, 0, 0, 255]).flatten

/-- A 1x1 opaque black image. -/
def imgK1 : Image := [0, 0, 0, 255]

/-- A 1x1 opaque white image. -/
def imgW1 : Image := [255, 255, 255, 255]

theorem neighborCoords_bounds (x y w h : ℕ) (hx : x < w) (hy : y < h) :
    ∀ c ∈ neighborCoords x y w h, c.1 < w ∧ c.2 < h := by
  intro c hc
  simp only [neighborCoords, List.mem_flatMap, List.mem_map, List.mem_range] at hc
  obtain ⟨ay, ⟨ky, hky, hkey⟩, ⟨ax, ⟨kx, hkx, hkex⟩, hcc⟩⟩ := hc
  subst hcc
  constructor
  · simp only []
    omega
  · simp only []
    omega

/-- C9: for any image dimensions at least 1x1 and any in-range pixel (x, y),
every coordinate the anti-aliasing classifier and the sibling test can read
(center, scanned neighbours, and the sibling neighbourhoods of any extremal
neighbour) is clamped into [0, w-1] x [0, h-1], and its 4 output bytes lie
inside the width*height*4 buffer — no out-of-range access exists.  The
classifier itself is a total function, so the classification is
deterministic. -/
theorem C9_classifier_bounds (w h x y : ℕ) (hw : 1 ≤ w) (hh : 1 ≤ h)
    (hx : x < w) (hy : y < h) :
    ∀ c ∈ aaReadCoords x y w h,
      c.1 < w ∧ c.2 < h ∧ (c.2 * w + c.1) * 4 + 3 < w * h * 4 := by
  intro c hc
  have hfin : c.1 < w ∧ c.2 < h → c.1 < w ∧ c.2 < h ∧ (c.2 * w + c.1) * 4 + 3 < w * h * 4 :=
    fun ⟨h1, h2⟩ => ⟨h1, h2, pixel_pos_lt h1 h2⟩
  simp only [aaReadCoords, List.mem_cons, List.mem_append, List.mem_flatMap] at hc
  rcases hc with (rfl | hin) | ⟨c0, hc0, rfl | hin⟩
  · exact hfin ⟨hx, hy⟩
  · exact hfin (neighborCoords_bounds x y w h hx hy c hin)
  · exact hfin (neighborCoords_bounds x y w h hx hy c hc0)
  · have hb0 := neighborCoords_bounds x y w h hx hy c0 hc0
    exact hfin (neighborCoords_bounds c0.1 c0.2 w h hb0.1 hb0.2 c hin)

/-- C9, witness: the 2x2 case of the spec's border-handling property, plus a
concrete deterministic classification on a uniform 2x2 image. -/
theorem C9_classifier_bounds_witness :
    (∀ c ∈ aaReadCoords 0 0 2 2,
      c.1 < 2 ∧ c.2 < 2 ∧ (c.2 * 2 + c.1) * 4 + 3 < 2 * 2 * 4) ∧
    is_pixel_antialiased_optimized imgU22 imgU22 0 0 2 2 = false :=
  ⟨C9_classifier_bounds 2 2 0 0 (by decide) (by decide) (by decide) (by decide),
    by decide⟩

/-- C10: when the two decoded images disagree in width or height, both
`diff_images` and `diff_bytes` return the dimension error; no `DiffResult` is
produced and `diff_rgba` is never reached (the `.error` value contains no
result). -/
theorem C10_dimension_mismatch (d1 d2 : DecodedImage) (opts : Option DiffOptions)
    (hne : d1.width ≠ d2.width ∨ d1.height ≠ d2.height) :
    (∃ e, diff_images d1 d2 opts = .error e) ∧
    (∃ e, diff_bytes d1 d2 opts = .error e) := by
  constructor
  · refine ⟨"Images must have equal dimensions", ?_⟩
    simp only [diff_images]
    rw [if_pos hne]
  · refine ⟨"Images must have equal dimensions", ?_⟩
    simp only [diff_bytes]
    rw [if_pos hne]

/-- C10, witness: a 1x1 and a 2x1 decoded image. -/
theorem C10_dimension_mismatch_witness :
    (∃ e, diff_images ⟨1, 1, imgK1⟩ ⟨2, 1, imgW2⟩ none = .error e) ∧
    (∃ e, diff_bytes ⟨1, 1, imgK1⟩ ⟨2, 1, imgW2⟩ none = .error e) :=
  C10_dimension_mismatch ⟨1, 1, imgK1⟩ ⟨2, 1, imgW2⟩ none (by decide)

/-- C5: for a pixel pair that is not byte-identical, the scan renders the AA
or diff marker iff the color delta strictly exceeds `35215 * threshold²`, and
the unchanged (scalar) gray render otherwise. -/
theorem C5_threshold_branch (img1 img2 : Image) (w h : ℕ) (opts : Option DiffOptions)
    (x y : ℕ) (hx : x < w) (hy : y < h)
    (hne : load_pixel_u32 img1 (y * w * 4 + x * 4) ≠
      load_pixel_u32 img2 (y * w * 4 + x * 4)) :
    px (diff_rgba img1 img2 w h opts).output (y * w + x) =
      (if calculate_pixel_color_delta_fast (load_pixel_u32 img1 (y * w * 4 + x * 4))
          (load_pixel_u32 img2 (y * w * 4 + x * 4)) >
          35215 * ((opts.getD DiffOptions.default).threshold *
            (opts.getD DiffOptions.default).threshold) then
        (if (opts.getD DiffOptions.default).include_aa &&
            is_pixel_antialiased_optimized img1 img2 x y w h then
          colorBytes (opts.getD DiffOptions.default).aa_color
        else colorBytes (opts.getD DiffOptions.default).diff_color)
      else grayScalarBytes img1 (y * w * 4 + x * 4)
        (opts.getD DiffOptions.default).alpha) := by
  rw [diff_rgba_px img1 img2 w h opts x y hx hy]
  simp only [pixelRenderBytes]
  rw [if_neg (fun hblk => hne (inAllEqBlock_load_eq img1 img2 w x y hblk))]
  simp only [scalarRenderBytes, pixelState, maxDeltaOf]
  rw [if_neg hne]
  split_ifs <;> rfl

/-- C5, witness: a 1x1 black-vs-white pair at default options renders the diff
marker (delta 35215 exceeds 352.15). -/
theorem C5_threshold_branch_witness :
    px (diff_rgba imgK1 imgW1 1 1 none).output (0 * 1 + 0) = [255, 0, 255, 255] := by
  rw [C5_threshold_branch imgK1 imgW1 1 1 none 0 0 (by decide) (by decide) (by decide)]
  have l1 : load_pixel_u32 imgK1 (0 * 1 * 4 + 0 * 4) = 4278190080 := by decide
  have l2 : load_pixel_u32 imgW1 (0 * 1 * 4 + 0 * 4) = 4294967295 := by decide
  rw [l1, l2]
  norm_num [calculate_pixel_color_delta_fast, blendChan, chR, chG, chB, chA,
    Y_R, Y_G, Y_B, I_R, I_G, I_B, Q_R, Q_G, Q_B,
    YIQ_Y_WEIGHT, YIQ_I_WEIGHT, YIQ_Q_WEIGHT, DiffOptions.default, colorBytes]

theorem pixelRenderBytes_eq_renderOf (img1 img2 : Image) (o : DiffOptions)
    (w h x y : ℕ) :
    pixelRenderBytes img1 img2 o w h x y =
      renderOf img1 img2 o w h x y (pixelState img1 img2 o w h x y) := by
  simp only [pixelRenderBytes]
  by_cases hblk : inAllEqBlock img1 img2 w x y
  · rw [if_pos hblk,
      pixelState_eq_of_eq img1 img2 o w h x y (inAllEqBlock_load_eq img1 img2 w x y hblk)]
    simp only [renderOf]
    rw [if_pos hblk]
  · rw [if_neg hblk]
    simp only [scalarRenderBytes]
    cases hs : pixelState img1 img2 o w h x y
    · simp only [renderOf]
      rw [if_neg hblk]
    · rfl
    · rfl

theorem pixelRenderBytes_alpha (img1 img2 : Image) (o : DiffOptions) (w h x y : ℕ) :
    (pixelRenderBytes img1 img2 o w h x y).getD 3 0 = 255 := by
  simp only [pixelRenderBytes, scalarRenderBytes]
  split_ifs
  · rfl
  · cases pixelState img1 img2 o w h x y <;> rfl

/-- C8: the output buffer of `diff_rgba` has exactly width*height*4 bytes;
every pixel holds the render of exactly one of the three states (the gray
unchanged render, the aa_color marker, or the diff_color marker — selected by
the single-valued classification `pixelState`), and the alpha byte of every
output pixel is 255. -/
theorem C8_output_complete (img1 img2 : Image) (w h : ℕ) (opts : Option DiffOptions)
    (x y : ℕ) (hx : x < w) (hy : y < h) :
    (diff_rgba img1 img2 w h opts).output.length = w * h * 4 ∧
    px (diff_rgba img1 img2 w h opts).output (y * w + x) =
      renderOf img1 img2 (opts.getD DiffOptions.default) w h x y
        (pixelState img1 img2 (opts.getD DiffOptions.default) w h x y) ∧
    (diff_rgba img1 img2 w h opts).output.getD ((y * w + x) * 4 + 3) 0 = 255 := by
  refine ⟨diff_rgba_len img1 img2 w h opts, ?_, ?_⟩
  · rw [diff_rgba_px img1 img2 w h opts x y hx hy, pixelRenderBytes_eq_renderOf]
  · have hpx := diff_rgba_px img1 img2 w h opts x y hx hy
    have h3 := congrArg (fun l => l.getD 3 0) hpx
    simp only [px, List.getD_cons_succ, List.getD_cons_zero] at h3
    rw [h3, pixelRenderBytes_alpha]

/-- C8, witness: the black-vs-white 1x1 diff. -/
theorem C8_output_complete_witness :
    (diff_rgba imgK1 imgW1 1 1 none).output.length = 1 * 1 * 4 ∧
    px (diff_rgba imgK1 imgW1 1 1 none).output (0 * 1 + 0) =
      renderOf imgK1 imgW1 DiffOptions.default 1 1 0 0
        (pixelState imgK1 imgW1 DiffOptions.default 1 1 0 0) ∧
    (diff_rgba imgK1 imgW1 1 1 none).output.getD ((0 * 1 + 0) * 4 + 3) 0 = 255 :=
  C8_output_complete imgK1 imgW1 1 1 none 0 0 (by decide) (by decide)

theorem diffCountSpec_self (img : Image) (o : DiffOptions) (w h : ℕ) :
    diffCountSpec img img o w h = 0 := by
  refine List.sum_eq_zero ?_
  intro v hv
  obtain ⟨y, hy, rfl⟩ := List.mem_map.mp hv
  refine List.sum_eq_zero ?_
  intro u hu
  obtain ⟨x, hx, rfl⟩ := List.mem_map.mp hu
  simp [pixelFlag_false_of_eq img img o w h x y rfl]

/-- C2, amended claim: `diff_rgba(A, A)` always yields `diff_count = 0`, and
every output pixel is a grayscale render of A — but through two different
renderers: pixels of complete 8-pixel groups get the batched gray render
(luma kept fractional), remainder pixels get the scalar gray render (luma
truncated to an integer first). -/
theorem C2_identity (img : Image) (w h : ℕ) (opts : Option DiffOptions)
    (x y : ℕ) (hx : x < w) (hy : y < h) :
    (diff_rgba img img w h opts).diff_count = 0 ∧
    px (diff_rgba img img w h opts).output (y * w + x) =
      (if x < w / 8 * 8 then
        gray8Bytes img (y * w * 4 + x * 4) (opts.getD DiffOptions.default).alpha
      else grayScalarBytes img (y * w * 4 + x * 4) (opts.getD DiffOptions.default).alpha) := by
  constructor
  · rw [diff_rgba_cnt, diffCountSpec_self]
  · rw [diff_rgba_px img img w h opts x y hx hy]
    simp only [pixelRenderBytes, inAllEqBlock]
    by_cases hx8 : x < w / 8 * 8
    · rw [if_pos ⟨hx8, blockAllEq_self img (y * w * 4 + x / 8 * 8 * 4)⟩, if_pos hx8]
    · rw [if_neg (fun hc => hx8 hc.1), if_neg hx8]
      simp only [scalarRenderBytes]
      rw [pixelState_eq_of_eq img img (opts.getD DiffOptions.default) w h x y rfl]

/-- C2, witness: a 9x1 self-diff. -/
theorem C2_identity_witness :
    (diff_rgba imgG9 imgG9 9 1 (some opts9)).diff_count = 0 ∧
    px (diff_rgba imgG9 imgG9 9 1 (some opts9)).output (0 * 9 + 8) =
      (if 8 < 9 / 8 * 8 then
        gray8Bytes imgG9 (0 * 9 * 4 + 8 * 4) ((some opts9).getD DiffOptions.default).alpha
      else grayScalarBytes imgG9 (0 * 9 * 4 + 8 * 4)
        ((some opts9).getD DiffOptions.default).alpha) :=
  C2_identity imgG9 9 1 (some opts9) 8 0 (by decide) (by decide)

/-- C2, counterexample: in a 9x1 self-diff of nine identical pixels, the
first pixel (inside the one complete 8-pixel group) renders as gray value 46
while the ninth pixel (the scalar remainder) renders as gray value 45, even
though the two source pixels are byte-identical — so no single per-pixel
"grayscale render of A" matches the whole output buffer. -/
theorem C2_counterexample :
    load_pixel_u32 imgG9 0 = load_pixel_u32 imgG9 32 ∧
    px (diff_rgba imgG9 imgG9 9 1 (some opts9)).output 0 = [46, 46, 46, 255] ∧
    px (diff_rgba imgG9 imgG9 9 1 (some opts9)).output 8 = [45, 45, 45, 255] := by
  refine ⟨by decide, ?_, ?_⟩
  · have h := diff_rgba_px imgG9 imgG9 9 1 (some opts9) 0 0 (by decide) (by decide)
    have h2 : px (diff_rgba imgG9 imgG9 9 1 (some opts9)).output 0 =
        pixelRenderBytes imgG9 imgG9 opts9 9 1 0 0 := h
    rw [h2]
    simp only [pixelRenderBytes]
    rw [if_pos ⟨by decide, blockAllEq_self imgG9 (0 * 9 * 4 + 0 / 8 * 8 * 4)⟩]
    have g0 : getB imgG9 (0 * 9 * 4 + 0 * 4) = 0 := by decide
    have g1 : getB imgG9 (0 * 9 * 4 + 0 * 4 + 1) = 0 := by decide
    have g2 : getB imgG9 (0 * 9 * 4 + 0 * 4 + 2) = 200 := by decide
    have g3 : getB imgG9 (0 * 9 * 4 + 0 * 4 + 3) = 255 := by decide
    simp only [gray8Bytes, draw8_gray_val, g0, g1, g2, g3, opts9, f32_as_u8]
    norm_num [Y_R, Y_G, Y_B, Int.floor_eq_iff]
    all_goals decide
  · have h := diff_rgba_px imgG9 imgG9 9 1 (some opts9) 8 0 (by decide) (by decide)
    have h2 : px (diff_rgba imgG9 imgG9 9 1 (some opts9)).output 8 =
        pixelRenderBytes imgG9 imgG9 opts9 9 1 8 0 := h
    rw [h2]
    simp only [pixelRenderBytes]
    rw [if_neg (fun hc => absurd hc.1 (by decide) : ¬inAllEqBlock imgG9 imgG9 9 8 0)]
    simp only [scalarRenderBytes]
    rw [pixelState_eq_of_eq imgG9 imgG9 opts9 9 1 8 0 rfl]
    have g0 : getB imgG9 (0 * 9 * 4 + 8 * 4) = 0 := by decide
    have g1 : getB imgG9 (0 * 9 * 4 + 8 * 4 + 1) = 0 := by decide
    have g2 : getB imgG9 (0 * 9 * 4 + 8 * 4 + 2) = 200 := by decide
    have g3 : getB imgG9 (0 * 9 * 4 + 8 * 4 + 3) = 255 := by decide
    simp only [grayScalarBytes, draw_gray_val, g0, g1, g2, g3, opts9,
      f32_as_u8, f32_as_u32]
    norm_num [Y_R, Y_G, Y_B, Int.floor_eq_iff, Int.toNat_ofNat]
    all_goals try rw [show Int.toNat 22 = (22 : ℕ) from rfl]
    all_goals norm_num [Int.floor_eq_iff]
    all_goals decide

/-- C1, amended claim: the batched scan and the pure scalar scan always agree
on `diff_count`, and agree byte-for-byte on every pixel that does not lie in
a fully byte-identical 8-pixel group; inside such groups the batched path
renders gray without truncating the luma while the scalar path truncates it,
so those bytes can differ. -/
theorem C1_batched_scalar_equiv (img1 img2 : Image) (w h : ℕ)
    (opts : Option DiffOptions) :
    (diff_rgba img1 img2 w h opts).diff_count =
      (diff_rgba_scalar img1 img2 w h opts).diff_count ∧
    ∀ x y, x < w → y < h → ¬inAllEqBlock img1 img2 w x y →
      px (diff_rgba img1 img2 w h opts).output (y * w + x) =
        px (diff_rgba_scalar img1 img2 w h opts).output (y * w + x) := by
  constructor
  · rw [diff_rgba_cnt, diff_rgba_scalar_cnt]
  · intro x y hx hy hblk
    rw [diff_rgba_px img1 img2 w h opts x y hx hy,
      diff_rgba_scalar_px img1 img2 w h opts x y hx hy]
    simp only [pixelRenderBytes]
    rw [if_neg hblk]

/-- C1, witness: a black-vs-white 1x1 pair (no complete 8-pixel group at all),
where the two paths agree everywhere. -/
theorem C1_batched_scalar_equiv_witness :
    (diff_rgba imgK1 imgW1 1 1 none).diff_count =
      (diff_rgba_scalar imgK1 imgW1 1 1 none).diff_count ∧
    px (diff_rgba imgK1 imgW1 1 1 none).output (0 * 1 + 0) =
      px (diff_rgba_scalar imgK1 imgW1 1 1 none).output (0 * 1 + 0) :=
  ⟨(C1_batched_scalar_equiv imgK1 imgW1 1 1 none).1,
    (C1_batched_scalar_equiv imgK1 imgW1 1 1 none).2 0 0 (by decide) (by decide)
      (fun hc => absurd hc.1 (by decide))⟩

/-- C1, counterexample: on an 8x1 pair of identical images with alpha 0.9,
the batched and scalar paths produce the same `diff_count` but different
output buffers (byte 0 is 46 from the batched gray renderer and 45 from the
scalar one), refuting byte-identical output for widths that are a multiple of
the batch width as well as the general claim. -/
theorem C1_counterexample :
    (diff_rgba imgG8 imgG8 8 1 (some opts9)).diff_count =
      (diff_rgba_scalar imgG8 imgG8 8 1 (some opts9)).diff_count ∧
    (diff_rgba imgG8 imgG8 8 1 (some opts9)).output ≠
      (diff_rgba_scalar imgG8 imgG8 8 1 (some opts9)).output := by
  constructor
  · rw [diff_rgba_cnt, diff_rgba_scalar_cnt]
  · have h1 : px (diff_rgba imgG8 imgG8 8 1 (some opts9)).output 0 = [46, 46, 46, 255] := by
      have h := diff_rgba_px imgG8 imgG8 8 1 (some opts9) 0 0 (by decide) (by decide)
      have h2 : px (diff_rgba imgG8 imgG8 8 1 (some opts9)).output 0 =
          pixelRenderBytes imgG8 imgG8 opts9 8 1 0 0 := h
      rw [h2]
      simp only [pixelRenderBytes]
      rw [if_pos ⟨by decide, blockAllEq_self imgG8 (0 * 8 * 4 + 0 / 8 * 8 * 4)⟩]
      have g0 : getB imgG8 (0 * 8 * 4 + 0 * 4) = 0 := by decide
      have g1 : getB imgG8 (0 * 8 * 4 + 0 * 4 + 1) = 0 := by decide
      have g2 : getB imgG8 (0 * 8 * 4 + 0 * 4 + 2) = 200 := by decide
      have g3 : getB imgG8 (0 * 8 * 4 + 0 * 4 + 3) = 255 := by decide
      simp only [gray8Bytes, draw8_gray_val, g0, g1, g2, g3, opts9, f32_as_u8]
      norm_num [Y_R, Y_G, Y_B, Int.floor_eq_iff]
      all_goals decide
    have h2 : px (diff_rgba_scalar imgG8 imgG8 8 1 (some opts9)).output 0 =
        [45, 45, 45, 255] := by
      have h := diff_rgba_scalar_px imgG8 imgG8 8 1 (some opts9) 0 0 (by decide) (by decide)
      have h2 : px (diff_rgba_scalar imgG8 imgG8 8 1 (some opts9)).output 0 =
          scalarRenderBytes imgG8 imgG8 opts9 8 1 0 0 := h
      rw [h2]
      simp only [scalarRenderBytes]
      rw [pixelState_eq_of_eq imgG8 imgG8 opts9 8 1 0 0 rfl]
      have g0 : getB imgG8 (0 * 8 * 4 + 0 * 4) = 0 := by decide
      have g1 : getB imgG8 (0 * 8 * 4 + 0 * 4 + 1) = 0 := by decide
      have g2 : getB imgG8 (0 * 8 * 4 + 0 * 4 + 2) = 200 := by decide
      have g3 : getB imgG8 (0 * 8 * 4 + 0 * 4 + 3) = 255 := by decide
      simp only [grayScalarBytes, draw_gray_val, g0, g1, g2, g3, opts9,
        f32_as_u8, f32_as_u32]
      norm_num [Y_R, Y_G, Y_B, Int.floor_eq_iff, Int.toNat_ofNat]
      all_goals try rw [show Int.toNat 22 = (22 : ℕ) from rfl]
      all_goals norm_num [Int.floor_eq_iff]
      all_goals decide
    intro he
    rw [he] at h1
    exact absurd (h1.symm.trans h2) (by decide)

theorem pixelFlag_mono (img1 img2 : Image) (o1 o2 : DiffOptions) (w h x y : ℕ)
    (haa : o1.include_aa = o2.include_aa) (hm : maxDeltaOf o1 ≤ maxDeltaOf o2)
    (hf : pixelFlag img1 img2 o2 w h x y = true) :
    pixelFlag img1 img2 o1 w h x y = true := by
  simp only [pixelFlag, pixelState, beq_iff_eq] at hf ⊢
  split_ifs at hf with hp hd haa2 <;>
    first
    | exact absurd hf (by decide)
    | rw [if_neg hp, if_pos (lt_of_le_of_lt hm hd), haa, if_neg haa2]

/-- C6: with all options equal except the threshold, raising the threshold
within [0, 1] never increases `diff_count`. -/
theorem C6_threshold_monotone (img1 img2 : Image) (w h : ℕ) (o1 o2 : DiffOptions)
    (haa : o1.include_aa = o2.include_aa) (hal : o1.alpha = o2.alpha)
    (hac : o1.aa_color = o2.aa_color) (hdc : o1.diff_color = o2.diff_color)
    (hdca : o1.diff_color_alt = o2.diff_color_alt)
    (h0 : 0 ≤ o1.threshold) (h12 : o1.threshold ≤ o2.threshold)
    (h1 : o2.threshold ≤ 1) :
    (diff_rgba img1 img2 w h (some o2)).diff_count ≤
      (diff_rgba img1 img2 w h (some o1)).diff_count := by
  rw [diff_rgba_cnt, diff_rgba_cnt]
  simp only [Option.getD_some, diffCountSpec]
  refine List.sum_le_sum ?_
  intro y hy
  refine List.sum_le_sum ?_
  intro x hx
  by_cases hf : pixelFlag img1 img2 o2 w h x y = true
  · have hf1 := pixelFlag_mono img1 img2 o1 o2 w h x y haa
      (maxDelta_mono o1 o2 h0 h12) hf
    simp [hf, hf1]
  · simp [hf]

/-- C6, witness: black-vs-white 1x1 with thresholds 0.1 and 0.2. -/
theorem C6_threshold_monotone_witness :
    (diff_rgba imgK1 imgW1 1 1
      (some ⟨0.2, false, 0.1, (255, 255, 0), (255, 0, 255), none⟩)).diff_count ≤
    (diff_rgba imgK1 imgW1 1 1
      (some ⟨0.1, false, 0.1, (255, 255, 0), (255, 0, 255), none⟩)).diff_count :=
  C6_threshold_monotone imgK1 imgW1 1 1
    ⟨0.1, false, 0.1, (255, 255, 0), (255, 0, 255), none⟩
    ⟨0.2, false, 0.1, (255, 255, 0), (255, 0, 255), none⟩
    rfl rfl rfl rfl rfl (by norm_num) (by norm_num) (by norm_num)

theorem pixelState_symm (img1 img2 : Image) (o : DiffOptions) (w h x y : ℕ)
    (haa : o.include_aa = false) :
    pixelState img1 img2 o w h x y = pixelState img2 img1 o w h x y := by
  simp only [pixelState]
  by_cases hp : load_pixel_u32 img1 (y * w * 4 + x * 4) =
      load_pixel_u32 img2 (y * w * 4 + x * 4)
  · rw [if_pos hp, if_pos hp.symm]
  · rw [if_neg hp,
      if_neg (show ¬load_pixel_u32 img2 (y * w * 4 + x * 4) =
        load_pixel_u32 img1 (y * w * 4 + x * 4) from fun hc => hp hc.symm),
      delta_symm (load_pixel_u32 img1 (y * w * 4 + x * 4))
        (load_pixel_u32 img2 (y * w * 4 + x * 4)), haa]
    simp

theorem pixelFlag_symm (img1 img2 : Image) (o : DiffOptions) (w h x y : ℕ)
    (haa : o.include_aa = false) :
    pixelFlag img1 img2 o w h x y = pixelFlag img2 img1 o w h x y := by
  rw [pixelFlag, pixelFlag, pixelState_symm img1 img2 o w h x y haa]

/-- C7, amended claim: with `include_aa = false`, swapping the two images
leaves `diff_count` unchanged (the color delta is symmetric).  With
`include_aa = true` this fails, see the counterexample. -/
theorem C7_symmetric_count (img1 img2 : Image) (w h : ℕ) (o : DiffOptions)
    (haa : o.include_aa = false) :
    (diff_rgba img1 img2 w h (some o)).diff_count =
      (diff_rgba img2 img1 w h (some o)).diff_count := by
  rw [diff_rgba_cnt, diff_rgba_cnt]
  simp only [Option.getD_some, diffCountSpec]
  congr 1
  refine List.map_congr_left ?_
  intro y hy
  congr 1
  refine List.map_congr_left ?_
  intro x hx
  simp only [pixelFlag_symm img1 img2 o w h x y haa]

/-- C7, witness: black-vs-white 1x1 with default options (aa off). -/
theorem C7_symmetric_count_witness :
    (diff_rgba imgK1 imgW1 1 1 (some opts9)).diff_count =
      (diff_rgba imgW1 imgK1 1 1 (some opts9)).diff_count :=
  C7_symmetric_count imgK1 imgW1 1 1 opts9 rfl

set_option maxHeartbeats 2000000 in
/-- C7, counterexample: with `include_aa = true`, swapping the all-white image
and the white-with-black-center image changes `diff_count` from 0 to 1: the
classifier takes the min/max positions from the first (base) image only, so
the center pixel is anti-aliased in one order and a counted difference in the
other. -/
theorem C7_counterexample :
    (diff_rgba imgA7 imgB7 3 3 (some optsAA)).diff_count ≠
      (diff_rgba imgB7 imgA7 3 3 (some optsAA)).diff_count := by
  have haa1 : is_pixel_antialiased_optimized imgA7 imgB7 1 1 3 3 = true := by
    norm_num +decide [is_pixel_antialiased_optimized, aaScan, aaLoopStep,
      neighborCoords, has_many_siblings_optimized, sibScan, edgeBias,
      load_pixel_u32, getB, calculate_brightness_delta_fast, lumaOf, lumaWhite,
      chR, chG, chB, chA, Y_R, Y_G, Y_B, imgA7, imgB7, List.replicate]
  have haa2 : is_pixel_antialiased_optimized imgB7 imgA7 1 1 3 3 = false := by
    norm_num +decide [is_pixel_antialiased_optimized, aaScan, aaLoopStep,
      neighborCoords, has_many_siblings_optimized, sibScan, edgeBias,
      load_pixel_u32, getB, calculate_brightness_delta_fast, lumaOf, lumaWhite,
      chR, chG, chB, chA, Y_R, Y_G, Y_B, imgA7, imgB7, List.replicate]
  have lA : load_pixel_u32 imgA7 (1 * 3 * 4 + 1 * 4) = 4278190080 := by decide
  have lB : load_pixel_u32 imgB7 (1 * 3 * 4 + 1 * 4) = 4294967295 := by decide
  have hdel : calculate_pixel_color_delta_fast 4278190080 4294967295 >
      maxDeltaOf optsAA := by
    norm_num [calculate_pixel_color_delta_fast, blendChan, chR, chG, chB, chA,
      maxDeltaOf, optsAA, Y_R, Y_G, Y_B, I_R, I_G, I_B, Q_R, Q_G, Q_B,
      YIQ_Y_WEIGHT, YIQ_I_WEIGHT, YIQ_Q_WEIGHT]
  have hdel2 : calculate_pixel_color_delta_fast 4294967295 4278190080 >
      maxDeltaOf optsAA := by
    rw [delta_symm]
    exact hdel
  have hs1 : pixelState imgA7 imgB7 optsAA 3 3 1 1 = .aaMarker := by
    simp only [pixelState, lA, lB]
    rw [if_neg (by decide), if_pos hdel]
    simp [optsAA, haa1]
  have hs2 : pixelState imgB7 imgA7 optsAA 3 3 1 1 = .diffMarker := by
    simp only [pixelState, lB, lA]
    rw [if_neg (by decide), if_pos hdel2]
    simp [optsAA, haa2]
  have fc1 : pixelFlag imgA7 imgB7 optsAA 3 3 1 1 = false := by
    rw [pixelFlag, hs1]
    rfl
  have fc2 : pixelFlag imgB7 imgA7 optsAA 3 3 1 1 = true := by
    rw [pixelFlag, hs2]
    rfl
  have fo : ∀ p ∈ [((0 : ℕ), (0 : ℕ)), (1, 0), (2, 0), (0, 1), (2, 1),
      (0, 2), (1, 2), (2, 2)],
      pixelFlag imgA7 imgB7 optsAA 3 3 p.1 p.2 = false ∧
      pixelFlag imgB7 imgA7 optsAA 3 3 p.1 p.2 = false := by
    decide
  rw [diff_rgba_cnt, diff_rgba_cnt]
  simp only [Option.getD_some, diffCountSpec,
    show List.range 3 = [0, 1, 2] from rfl, List.map_cons, List.map_nil,
    List.sum_cons, List.sum_nil]
  simp only [fc1, fc2,
    (fo (0, 0) (by simp)).1, (fo (0, 0) (by simp)).2,
    (fo (1, 0) (by simp)).1, (fo (1, 0) (by simp)).2,
    (fo (2, 0) (by simp)).1, (fo (2, 0) (by simp)).2,
    (fo (0, 1) (by simp)).1, (fo (0, 1) (by simp)).2,
    (fo (2, 1) (by simp)).1, (fo (2, 1) (by simp)).2,
    (fo (0, 2) (by simp)).1, (fo (0, 2) (by simp)).2,
    (fo (1, 2) (by simp)).1, (fo (1, 2) (by simp)).2,
    (fo (2, 2) (by simp)).1, (fo (2, 2) (by simp)).2]
  decide

end Rsdiff
